import Mathlib

/-
  Verification development for the FiLiP NGSI-v2 context model
  (src/filip/models/ngsi_v2/context.py).

  Python/JSON values are embedded as the inductive type `PyValue`; Python
  floats are modelled exactly as rationals (every float arising in the model
  comes from an int cast or a decimal literal, both exact).  Fallible
  construction and validation is modelled with `Except Err`.  Pydantic
  ValidationError (which subclasses ValueError) is `Err.validation`, a failed
  `assert` statement is `Err.assertion`, and the AttributeError raised by
  `delattr` on a missing attribute is `Err.lookup`.

  The embedding models the validation and normalization logic written in
  the repository itself: field values are taken as the JSON values handed
  to the declared validators, and pydantic (an external dependency, like
  the HTTP transport the spec excludes) is treated as the substrate that
  routes fields to those validators.  The DataType vocabulary and the
  FiwareRegex naming patterns live in filip/models/base.py, which is not
  among the provided sources; they are modelled from the spec, pinned where
  the repository test suite exercises them.
-/

namespace FiLiP

/-- Embedding of Python/JSON values as they occur in NGSI-v2 payloads:
None, booleans, ints, floats (as exact rationals), strings, lists and
string-keyed dicts (as ordered association lists, mirroring Python dict
insertion order). -/
inductive PyValue : Type where
  | none : PyValue
  | bool : Bool → PyValue
  | int : Int → PyValue
  | float : ℚ → PyValue
  | str : String → PyValue
  | list : List PyValue → PyValue
  | dict : List (String × PyValue) → PyValue

/-- Error class of a failed construction or mutation.  `validation` stands
for pydantic ValidationError (a ValueError subclass, also covering TypeError
and ValueError raised inside field validators), `assertion` for a failed
`assert`, `lookup` for the AttributeError of `delattr` on a missing name. -/
inductive Err : Type where
  | validation : Err
  | assertion : Err
  | lookup : String → Err
deriving DecidableEq

/-- Python truthiness (`if value:`): None, False, 0, 0.0, the empty string,
the empty list and the empty dict are falsy, everything else truthy. -/
def pyTruthy : PyValue → Bool
  | .none => false
  | .bool b => b
  | .int n => decide (n ≠ 0)
  | .float q => decide (q ≠ 0)
  | .str s => decide (s ≠ "")
  | .list xs => !xs.isEmpty
  | .dict kvs => !kvs.isEmpty

/-- Python `bool(x)` coincides with truthiness. -/
def pyBoolOf (v : PyValue) : Bool := pyTruthy v

/-- The single-quote character used by Python repr of strings, written via
an escape so the source scanner sees no quote character. -/
def pyQuote : String := "\x27"

/-- Decimal digits of the fractional part of a fraction `r / d`, produced by
long division with the given fuel (17 digits suffice for double precision). -/
def fracDigits : Nat → Nat → Nat → String
  | 0, _, _ => ""
  | _ + 1, 0, _ => ""
  | fuel + 1, r, d =>
    let r10 := r * 10
    toString (r10 / d) ++ fracDigits fuel (r10 % d) d

/-- Python `repr`` of a float: sign, integer part, a dot and the fractional
digits (".0" for integral floats, e.g. `20.0`).  Models the decimal
rendering of `str(float)`; no theorem below depends on the non-integral
case. -/
def floatRepr (q : ℚ) : String :=
  let sign := if q < 0 then "-" else ""
  let n := q.num.natAbs
  let ip := n / q.den
  let rem := n % q.den
  let frac := fracDigits 17 rem q.den
  sign ++ toString ip ++ "." ++ (if frac = "" then "0" else frac)

mutual

/-- Python `repr` of a value (used by `str` for non-string containers):
None → "None", True/False, decimal ints, floats via `floatRepr`, strings
wrapped in single quotes, lists in brackets and dicts in braces with
comma-separated entries. -/
def pyRepr : PyValue → String
  | .none => "None"
  | .bool true => "True"
  | .bool false => "False"
  | .int n => toString n
  | .float q => floatRepr q
  | .str s => pyQuote ++ s ++ pyQuote
  | .list xs => "[" ++ pyReprList xs ++ "]"
  | .dict kvs => "\x7b" ++ pyReprDict kvs ++ "\x7d"

/-- Comma-separated reprs of the elements of a list. -/
def pyReprList : List PyValue → String
  | [] => ""
  | [x] => pyRepr x
  | x :: xs => pyRepr x ++ ", " ++ pyReprList xs

/-- Comma-separated reprs of the entries of a dict. -/
def pyReprDict : List (String × PyValue) → String
  | [] => ""
  | [(k, v)] => pyQuote ++ k ++ pyQuote ++ ": " ++ pyRepr v
  | (k, v) :: kvs =>
    pyQuote ++ k ++ pyQuote ++ ": " ++ pyRepr v ++ ", " ++ pyReprDict kvs

end

/-- Python `str(x)`: the string itself for strings, `repr` otherwise. -/
def pyStr : PyValue → String
  | .str s => s
  | v => pyRepr v

/-- Numeric value of a list of decimal digit characters. -/
def digitsToNat (ds : List Char) : Nat :=
  ds.foldl (fun a c => a * 10 + (c.toNat - 48)) 0

/-- Python `float(s)` on a string: optional sign, then digits with an
optional single decimal point (at least one digit overall).  Exotic forms
(exponents, inf, nan) are out of scope; no theorem depends on them. -/
def parseFloatStr (s : String) : Option ℚ :=
  let step : List Char → ℚ → Option ℚ := fun cs sign =>
    let (ip, rest) := cs.span Char.isDigit
    match rest with
    | [] => if ip = [] then Option.none else some (sign * (digitsToNat ip : ℚ))
    | '.' :: rest2 =>
      let (fp, rest3) := rest2.span Char.isDigit
      if rest3 = [] ∧ ¬(ip = [] ∧ fp = []) then
        some (sign * ((digitsToNat ip : ℚ) +
          (digitsToNat fp : ℚ) / ((10 : ℚ) ^ fp.length)))
      else Option.none
    | _ => Option.none
  match s.toList with
  | '-' :: t => step t (-1)
  | '+' :: t => step t 1
  | t => step t 1

/-- Python `int(s)` on a string: optional sign then a nonempty digit run. -/
def parseIntStr (s : String) : Option Int :=
  let step : List Char → Int → Option Int := fun cs sign =>
    if cs ≠ [] ∧ cs.all Char.isDigit then some (sign * (digitsToNat cs : Int))
    else Option.none
  match s.toList with
  | '-' :: t => step t (-1)
  | '+' :: t => step t 1
  | t => step t 1

/-- Truncation of a rational toward zero, Python `int(float)`. -/
def ratTrunc (q : ℚ) : Int :=
  if q.num ≥ 0 then ((q.num.natAbs / q.den : Nat) : Int)
  else -((q.num.natAbs / q.den : Nat) : Int)

/-- Python `float(x)`: floats pass through, bools give 1.0/0.0, ints are
cast exactly, numeric strings are parsed (ValueError otherwise), and None,
lists and dicts raise a TypeError.  Both error kinds surface as a pydantic
ValidationError when raised inside a validator. -/
def pyFloatOf : PyValue → Except Err ℚ
  | .float q => .ok q
  | .bool b => .ok (if b then 1 else 0)
  | .int n => .ok (n : ℚ)
  | .str s =>
    match parseFloatStr s with
    | some q => .ok q
    | Option.none => .error .validation
  | _ => .error .validation

/-- Python `int(x)`: ints pass through, bools give 1/0, floats truncate
toward zero, integer-literal strings are parsed, everything else raises. -/
def pyIntOf : PyValue → Except Err Int
  | .int n => .ok n
  | .bool b => .ok (if b then 1 else 0)
  | .float q => .ok (ratTrunc q)
  | .str s =>
    match parseIntStr s with
    | some n => .ok n
    | Option.none => .error .validation
  | _ => .error .validation

mutual

/-- `json.loads(json.dumps(v))`: every `PyValue` constructor is
JSON-serializable, so the round trip rebuilds the value structurally
(the tuples-become-lists normalization of the source has no effect here
because tuples do not occur among JSON values). -/
def jsonRoundTrip : PyValue → PyValue
  | .none => .none
  | .bool b => .bool b
  | .int n => .int n
  | .float q => .float q
  | .str s => .str s
  | .list xs => .list (jsonRoundTripList xs)
  | .dict kvs => .dict (jsonRoundTripDict kvs)

/-- Round trip of the elements of a JSON array. -/
def jsonRoundTripList : List PyValue → List PyValue
  | [] => []
  | x :: xs => jsonRoundTrip x :: jsonRoundTripList xs

/-- Round trip of the entries of a JSON object. -/
def jsonRoundTripDict : List (String × PyValue) → List (String × PyValue)
  | [] => []
  | (k, v) :: kvs => (k, jsonRoundTrip v) :: jsonRoundTripDict kvs

end

/-- Sequential effectful map, mirroring a Python list comprehension or a
for-loop over validations: elements are processed left to right and the
first error aborts the whole computation. -/
def mapME {α β : Type} (f : α → Except Err β) : List α → Except Err (List β)
  | [] => .ok []
  | x :: xs =>
    match f x with
    | .error e => .error e
    | .ok y =>
      match mapME f xs with
      | .error e => .error e
      | .ok ys => .ok (y :: ys)

/-- Modelled from the spec: the type vocabulary `DataType` lives in
`filip/models/base.py`, which is not part of the provided sources.  Spec
section 3 enumerates the members Text, Boolean, Number, Float, Integer,
DateTime, Array, StructuredValue, Relationship, Command; the string value of
the Command member is pinned to "command" by the repository test
`test_command` (tests/models/test_ngsi_v2_context.py). -/
inductive DataType : Type where
  | text | boolean | number | float | integer | datetime
  | array | structuredvalue | relationship | command
deriving DecidableEq

/-- The wire string of each `DataType` member (a str-valued enum in the
source, so members compare equal to their string values). -/
def DataType.value : DataType → String
  | .text => "Text"
  | .boolean => "Boolean"
  | .number => "Number"
  | .float => "Float"
  | .integer => "Integer"
  | .datetime => "DateTime"
  | .array => "Array"
  | .structuredvalue => "StructuredValue"
  | .relationship => "Relationship"
  | .command => "command"

/-- `list(DataType)`: all members of the vocabulary. -/
def dataTypeList : List DataType :=
  [.text, .boolean, .number, .float, .integer, .datetime,
   .array, .structuredvalue, .relationship, .command]

/-- Modelled from the spec: `FiwareRegex.standard` of `filip/models/base.py`
(not in the provided sources).  A standard-pattern field accepts 1–256
characters of the plain ASCII set excluding control characters, whitespace
and the characters ampersand, question mark, slash and hash (spec section
4.1); the length bounds come from the `min_length`/`max_length` field
arguments in context.py. -/
def okChar (c : Char) : Bool :=
  32 < c.toNat && c.toNat < 127 &&
    !(c = '&' || c = '?' || c = '/' || c = '#')

/-- Validity of a string under the standard FIWARE-safe pattern together
with the 1–256 length bounds. -/
def standardPattern (s : String) : Bool :=
  1 ≤ s.length && s.length ≤ 256 && s.toList.all okChar

/-- Modelled from the spec: `FiwareRegex.string_protect` of
`filip/models/base.py` (not in the provided sources).  Spec section 4.1
describes the protected pattern as the standard exclusions plus rejection of
reserved tokens; the repository test `test_fiware_safe_fields`
(tests/models/test_ngsi_v2_context.py) pins the pattern to reject exactly
the whole strings "id", "type" and "geo:location" while accepting other
names that contain a colon, such as "3_:strange-Name!", so the embedding
bans the three reserved tokens rather than every colon. -/
def stringProtect (s : String) : Bool :=
  standardPattern s &&
    !(s = "id" || s = "type" || s = "geo:location")

/-- Embedding of `ContextMetadata`: an optional NGSI type and a
JSON-serializable value. -/
structure ContextMetadata : Type where
  type : Option String
  value : PyValue

/-- Construction of a `ContextMetadata`: the `type` field, when present,
must satisfy the standard pattern; `validate_value` asserts that the value
is JSON-serializable, which every `PyValue` is. -/
def ContextMetadata.parse (type? : Option String) (value : PyValue) :
    Except Err ContextMetadata :=
  match type? with
  | Option.none => .ok ⟨Option.none, value⟩
  | some t =>
    if standardPattern t then .ok ⟨some t, value⟩ else .error .validation

/-- Raw wire form of one metadata entry: the fields of the JSON object
`\x7b"type": ..., "value": ...\x7d`. -/
structure RawMetadata : Type where
  type : Option String
  value : PyValue

/-- Embedding of `ContextAttribute` after validation: the declared NGSI
type string, the coerced value and the normalized name-keyed metadata
mapping. -/
structure ContextAttribute : Type where
  type : String
  value : PyValue
  metadata : List (String × ContextMetadata)

/-- Embedding of `ContextAttribute.validate_value_type`, the coercion table
applied to the `value` field given the already-validated `type` field:
falsy values skip coercion entirely; Text maps `str` over lists and casts
scalars with `str`; Boolean likewise with `bool`; Number and Float with
`float`; Integer with `int`; DateTime passes through; Array requires a list
and returns it unchanged (TypeError otherwise); StructuredValue and every
unrecognized type string round-trip the value through `json.dumps` and
`json.loads`.  Each branch body is factored into a named helper below; the
dispatch itself is `validate_value_type`.  The Text branch: `str` over the
elements of a list, or over the scalar. -/
def coerceText : PyValue → PyValue
  | .list xs => .list (xs.map fun item => .str (pyStr item))
  | v => .str (pyStr v)

/-- The Boolean branch of the coercion table: `bool` over the elements of a
list, or over the scalar. -/
def coerceBool : PyValue → PyValue
  | .list xs => .list (xs.map fun item => .bool (pyBoolOf item))
  | v => .bool (pyBoolOf v)

/-- The Number/Float branch of the coercion table: `float` over the
elements of a list, or over the scalar, propagating the cast errors. -/
def coerceFloat : PyValue → Except Err PyValue
  | .list xs =>
    match mapME (fun item => (pyFloatOf item).map PyValue.float) xs with
    | .ok ys => .ok (.list ys)
    | .error e => .error e
  | v => (pyFloatOf v).map PyValue.float

/-- The Integer branch of the coercion table: `int` over the elements of a
list, or over the scalar, propagating the cast errors. -/
def coerceInt : PyValue → Except Err PyValue
  | .list xs =>
    match mapME (fun item => (pyIntOf item).map PyValue.int) xs with
    | .ok ys => .ok (.list ys)
    | .error e => .error e
  | v => (pyIntOf v).map PyValue.int

/-- The Array branch of the coercion table: a list passes unchanged, any
other value raises a TypeError reporting the mismatch. -/
def coerceArray : PyValue → Except Err PyValue
  | .list xs => .ok (.list xs)
  | _ => .error .validation

def validate_value_type (type_ : String) (value : PyValue) :
    Except Err PyValue :=
  if pyTruthy value then
    if type_ = DataType.text.value then .ok (coerceText value)
    else if type_ = DataType.boolean.value then .ok (coerceBool value)
    else if type_ = DataType.number.value ∨ type_ = DataType.float.value then
      coerceFloat value
    else if type_ = DataType.integer.value then coerceInt value
    else if type_ = DataType.datetime.value then .ok value
    else if type_ = DataType.array.value then coerceArray value
    else
      -- StructuredValue branch and the final else branch of the source both
      -- return json.loads(json.dumps(value)).
      .ok (jsonRoundTrip value)
  else
    .ok value

/-- Raw wire form of an attribute: the fields of the flat JSON object, with
`type` defaulting to Text and `value` to None when absent, and the metadata
object as raw entries. -/
structure RawAttribute : Type where
  type : Option String
  value : PyValue
  metadata : List (String × RawMetadata)

/-- The default-free raw attribute with only a type and a value, the shape
used throughout the repository tests. -/
def rawAttr (t : String) (v : PyValue) : RawAttribute :=
  ⟨some t, v, []⟩

/-- The step run on one raw metadata entry during attribute construction:
parse the entry into a `ContextMetadata` under its name key. -/
def parseMdEntry (km : String × RawMetadata) :
    Except Err (String × ContextMetadata) :=
  match ContextMetadata.parse km.2.type km.2.value with
  | .ok m => .ok (km.1, m)
  | .error e => .error e

/-- Serialization of one normalized metadata entry back to its raw form. -/
def rawOfMdEntry (km : String × ContextMetadata) : String × RawMetadata :=
  (km.1, ⟨km.2.type, km.2.value⟩)

/-- Construction of a `ContextAttribute` from its wire form, running the
pydantic field pipeline in declaration order: the `type` field (default
Text) is checked against the standard pattern, the `value` field is coerced
by `validate_value_type`, and each metadata entry is parsed into a
`ContextMetadata` keyed by its name. -/
def ContextAttribute.parse (raw : RawAttribute) : Except Err ContextAttribute :=
  let t := raw.type.getD DataType.text.value
  if standardPattern t then
    match validate_value_type t raw.value with
    | .error e => .error e
    | .ok v =>
      match mapME parseMdEntry raw.metadata with
      | .error e => .error e
      | .ok md => .ok ⟨t, v, md⟩
  else .error .validation

/-- Serialization (`.dict()`) of a validated attribute back to its wire
form. -/
def ContextAttribute.rawOf (a : ContextAttribute) : RawAttribute :=
  ⟨some a.type, a.value, a.metadata.map rawOfMdEntry⟩

/-- Embedding of `NamedContextAttribute`: a `ContextAttribute` together
with a name validated under the protected pattern. -/
structure NamedContextAttribute : Type where
  name : String
  type : String
  value : PyValue
  metadata : List (String × ContextMetadata)

/-- Construction of a `NamedContextAttribute`: the inherited fields `type`,
`value` and `metadata` are validated first (pydantic runs fields in
declaration order, parent fields before the child field `name`), then the
name is checked against the protected pattern. -/
def NamedContextAttribute.parse (name : String) (raw : RawAttribute) :
    Except Err NamedContextAttribute :=
  match ContextAttribute.parse raw with
  | .error e => .error e
  | .ok a =>
    if stringProtect name then .ok ⟨name, a.type, a.value, a.metadata⟩
    else .error .validation

/-- The step run on one raw extra field during entity construction: parse
the field into a `ContextAttribute` under its name key, as
`_validate_attributes` does. -/
def parseAttrEntry (kr : String × RawAttribute) :
    Except Err (String × ContextAttribute) :=
  match ContextAttribute.parse kr.2 with
  | .ok a => .ok (kr.1, a)
  | .error e => .error e

/-- Serialization of one attribute entry back to its raw form. -/
def rawOfAttrEntry (ka : String × ContextAttribute) : String × RawAttribute :=
  (ka.1, ContextAttribute.rawOf ka.2)

/-- Embedding of `ContextEntity`: the immutable `id` and `type` fields plus
the open, insertion-ordered mapping of attribute names to attributes (the
extra pydantic fields of the source model). -/
structure ContextEntity : Type where
  id : String
  type : String
  attrs : List (String × ContextAttribute)

/-- Construction of a `ContextEntity` from a flat JSON object: `id` and
`type` are validated against the standard pattern and length bounds, and
every extra field (the reserved keys `id` and `type` are routed to the
explicit parameters and excluded here, as in `_validate_attributes`) is
parsed as a `ContextAttribute` under its key. -/
def ContextEntity.parse (id type : String)
    (data : List (String × RawAttribute)) : Except Err ContextEntity :=
  if standardPattern id && standardPattern type then
    match mapME parseAttrEntry data with
    | .error e => .error e
    | .ok attrs => .ok ⟨id, type, attrs⟩
  else .error .validation

/-- Serialization of the entity back to its flat wire form: the extra
fields of `.dict()`, one raw attribute per attribute name. -/
def ContextEntity.wireAttrs (e : ContextEntity) :
    List (String × RawAttribute) :=
  e.attrs.map rawOfAttrEntry

/-- Embedding of `get_attribute_names`: the keys of all extra fields (the
source returns them as a Python set; the embedding keeps the key list,
whose membership and emptiness coincide with the set form because parsed
entities key attributes uniquely). -/
def ContextEntity.get_attribute_names (e : ContextEntity) : List String :=
  e.attrs.map Prod.fst

/-- Embedding of `PropertyFormat`: whether filtered attributes are returned
as a list of `NamedContextAttribute` or as a name-keyed dict. -/
inductive PropertyFormat : Type where
  | list | dict
deriving DecidableEq

/-- The admissible type list computed by `get_attributes`: the whitelist
when given, else the vocabulary minus the blacklist, else the whole
vocabulary. -/
def attributeTypesFor
    (whitelisted_attribute_types blacklisted_attribute_types :
      Option (List DataType)) : List DataType :=
  match whitelisted_attribute_types, blacklisted_attribute_types with
  | some ts, _ => ts
  | Option.none, some bs => dataTypeList.filter fun t => !bs.contains t
  | Option.none, Option.none => dataTypeList

/-- The filtering comprehension of `get_attributes`: the serialized extra
fields of `self.dict()` whose `type` value lies among the admissible type
values. -/
def selectAttrs (e : ContextEntity) (attribute_types : List DataType) :
    List (String × RawAttribute) :=
  e.wireAttrs.filter fun kr =>
    (attribute_types.map DataType.value).contains
      (kr.2.type.getD DataType.text.value)

/-- Embedding of `get_attributes`: after the assertion that at most one of
the whitelist and blacklist is supplied, the selected serialized extra
fields are rebuilt as `ContextAttribute` (dict format) or as
`NamedContextAttribute` under their key (list format), re-running the
validators on the serialized form exactly as the source constructors do. -/
def ContextEntity.get_attributes (e : ContextEntity)
    (whitelisted_attribute_types blacklisted_attribute_types :
      Option (List DataType))
    (response_format : PropertyFormat) :
    Except Err
      (Sum (List NamedContextAttribute) (List (String × ContextAttribute))) :=
  if whitelisted_attribute_types.isSome &&
      blacklisted_attribute_types.isSome then
    .error .assertion
  else
    let selected := selectAttrs e
      (attributeTypesFor whitelisted_attribute_types
        blacklisted_attribute_types)
    match response_format with
    | .dict =>
      match mapME parseAttrEntry selected with
      | .ok l => .ok (.inr l)
      | .error e => .error e
    | .list =>
      match mapME (fun kr : String × RawAttribute =>
          NamedContextAttribute.parse kr.1 kr.2) selected with
      | .ok l => .ok (.inl l)
      | .error e => .error e

/-- Embedding of `get_properties`: `get_attributes` with the Relationship
type blacklisted. -/
def ContextEntity.get_properties (e : ContextEntity)
    (response_format : PropertyFormat) :
    Except Err
      (Sum (List NamedContextAttribute) (List (String × ContextAttribute))) :=
  e.get_attributes Option.none (some [DataType.relationship]) response_format

/-- Embedding of `get_relationships`: `get_attributes` with the
Relationship type whitelisted. -/
def ContextEntity.get_relationships (e : ContextEntity)
    (response_format : PropertyFormat) :
    Except Err
      (Sum (List NamedContextAttribute) (List (String × ContextAttribute))) :=
  e.get_attributes (some [DataType.relationship]) Option.none response_format

/-- The argument union of `delete_attributes`: a name-keyed mapping of
`ContextAttribute`, or a list whose entries are plain name strings or
`NamedContextAttribute` records (the source iterates a single list and
accepts both entry shapes). -/
inductive DeleteArg : Type where
  | dict : List (String × ContextAttribute) → DeleteArg
  | list : List (Sum String NamedContextAttribute) → DeleteArg

/-- The name list collected by `delete_attributes` before any deletion:
mapping keys, or for list input the string entries and the names of the
`NamedContextAttribute` entries, in order. -/
def DeleteArg.names : DeleteArg → List String
  | .dict kvs => kvs.map Prod.fst
  | .list es => es.map fun entry =>
      match entry with
      | .inl s => s
      | .inr na => na.name

/-- A single `delattr(self, name)`: removes the attribute when present,
raises AttributeError (a lookup error) when the name is not an extra field
of the entity. -/
def ContextEntity.deleteAttr (e : ContextEntity) (name : String) :
    Except Err ContextEntity :=
  if name ∈ e.attrs.map Prod.fst then
    .ok ⟨e.id, e.type, e.attrs.filter fun p => decide (p.1 ≠ name)⟩
  else .error (.lookup name)

/-- The deletion loop of `delete_attributes`: names are deleted left to
right on the mutable entity; on the first missing name the loop aborts with
the lookup error, keeping the deletions already performed (the returned
state is the entity as the failed call leaves it). -/
def deleteRun (e : ContextEntity) : List String → ContextEntity × Option Err
  | [] => (e, Option.none)
  | n :: rest =>
    match e.deleteAttr n with
    | .ok e2 => deleteRun e2 rest
    | .error err => (e, some err)

/-- Embedding of `delete_attributes`: collect the names from the argument,
then delete them sequentially. -/
def ContextEntity.delete_attributes (e : ContextEntity) (attrs : DeleteArg) :
    ContextEntity × Option Err :=
  deleteRun e attrs.names

/-- Embedding of `ActionType`, the closed enumeration of bulk update
actions. -/
inductive ActionType : Type where
  | append | appendStrict | update | delete | «replace»
deriving DecidableEq

/-- The wire string of each `ActionType` member. -/
def ActionType.value : ActionType → String
  | .append => "append"
  | .appendStrict => "appendStrict"
  | .update => "update"
  | .delete => "delete"
  | .«replace» => "replace"

/-- `ActionType(action)`: enum lookup by value, raising a ValueError for a
string outside the enumeration, as run by the `check_action_type`
validator. -/
def ActionType.ofString (s : String) : Except Err ActionType :=
  if s = "append" then .ok .append
  else if s = "appendStrict" then .ok .appendStrict
  else if s = "update" then .ok .update
  else if s = "delete" then .ok .delete
  else if s = "replace" then .ok .«replace»
  else .error .validation

/-- Embedding of the `Update` model: a validated action type and the entity
list. -/
structure Update : Type where
  action_type : ActionType
  entities : List ContextEntity

/-- Construction of an `Update`: the `action_type` string is validated by
`check_action_type` (an enum lookup), the entities are taken as given. -/
def Update.parse (actionType : String) (entities : List ContextEntity) :
    Except Err Update :=
  match ActionType.ofString actionType with
  | .ok a => .ok ⟨a, entities⟩
  | .error e => .error e

/-- Embedding of `NamedCommand`: the fixed command type is implicit, the
value is any JSON-serializable payload (every `PyValue` is) and the name is
validated under the protected pattern. -/
structure NamedCommand : Type where
  name : String
  value : PyValue

/-- Construction of a `NamedCommand`: the `value` field passes the
serializability check (total on `PyValue`), then the `name` field is
checked against the protected pattern with the 1–256 length bounds. -/
def NamedCommand.parse (name : String) (value : PyValue) :
    Except Err NamedCommand :=
  if stringProtect name then .ok ⟨name, value⟩ else .error .validation

/-! Helper lemmas shared by the claim theorems. -/

theorem mapME_fixed {α : Type} (f : α → Except Err α) :
    ∀ l : List α, (∀ y ∈ l, f y = .ok y) → mapME f l = .ok l := by
  intro l
  induction l with
  | nil => intro _; rfl
  | cons x xs ih =>
    intro h
    simp only [mapME]
    rw [h x (List.mem_cons_self x xs),
      ih fun y hy => h y (List.mem_cons_of_mem x hy)]

theorem mapME_forall_mem {α β : Type} (f : α → Except Err β) (P : β → Prop)
    (hf : ∀ x r, f x = .ok r → P r) :
    ∀ (l : List α) (ys : List β), mapME f l = .ok ys → ∀ y ∈ ys, P y := by
  intro l
  induction l with
  | nil =>
    intro ys h y hy
    simp only [mapME] at h
    cases h
    cases hy
  | cons x xs ih =>
    intro ys h y hy
    simp only [mapME] at h
    cases hx : f x with
    | error e => rw [hx] at h; cases h
    | ok r =>
      rw [hx] at h
      cases hxs : mapME f xs with
      | error e => rw [hxs] at h; cases h
      | ok rs =>
        rw [hxs] at h
        cases h
        rcases List.mem_cons.mp hy with hy | hy
        · exact hy ▸ hf x r hx
        · exact ih rs hxs y hy

theorem mapME_map_ok {α β : Type} (g : α → β) (f : β → Except Err α) :
    ∀ l : List α, (∀ a ∈ l, f (g a) = .ok a) → mapME f (l.map g) = .ok l := by
  intro l
  induction l with
  | nil => intro _; rfl
  | cons x xs ih =>
    intro h
    simp only [List.map_cons, mapME]
    rw [h x (List.mem_cons_self x xs),
      ih fun a ha => h a (List.mem_cons_of_mem x ha)]

theorem mapME_error_mem {α β : Type} (f : α → Except Err β) :
    ∀ (l : List α) (e : Err), mapME f l = .error e → ∃ x ∈ l, f x = .error e := by
  intro l
  induction l with
  | nil => intro e h; cases h
  | cons x xs ih =>
    intro e h
    simp only [mapME] at h
    cases hx : f x with
    | error e2 =>
      rw [hx] at h
      cases h
      exact ⟨x, List.mem_cons_self x xs, hx⟩
    | ok r =>
      rw [hx] at h
      cases hxs : mapME f xs with
      | error e2 =>
        rw [hxs] at h
        cases h
        obtain ⟨y, hy, hfy⟩ := ih e hxs
        exact ⟨y, List.mem_cons_of_mem x hy, hfy⟩
      | ok rs => rw [hxs] at h; cases h

theorem jsonRoundTrip_id_all :
    (∀ v, jsonRoundTrip v = v) ∧
      (∀ kvs, jsonRoundTripDict kvs = kvs) ∧
      (∀ xs, jsonRoundTripList xs = xs) := by
  refine jsonRoundTrip.mutual_induct
    (fun v => jsonRoundTrip v = v)
    (fun kvs => jsonRoundTripDict kvs = kvs)
    (fun xs => jsonRoundTripList xs = xs)
    ?_ ?_ ?_ ?_ ?_ ?_ ?_ ?_ ?_ ?_ ?_
  all_goals intros
  all_goals simp_all [jsonRoundTrip, jsonRoundTripList, jsonRoundTripDict]

theorem jsonRoundTrip_id (v : PyValue) : jsonRoundTrip v = v :=
  jsonRoundTrip_id_all.1 v

theorem floatElem_fix (x r : PyValue)
    (h : (pyFloatOf x).map PyValue.float = .ok r) :
    (pyFloatOf r).map PyValue.float = .ok r := by
  cases hx : pyFloatOf x with
  | error e => rw [hx] at h; cases h
  | ok q =>
    rw [hx] at h
    cases h
    rfl

theorem intElem_fix (x r : PyValue)
    (h : (pyIntOf x).map PyValue.int = .ok r) :
    (pyIntOf r).map PyValue.int = .ok r := by
  cases hx : pyIntOf x with
  | error e => rw [hx] at h; cases h
  | ok n =>
    rw [hx] at h
    cases h
    rfl

theorem coerceText_fix (v : PyValue) : coerceText (coerceText v) = coerceText v := by
  cases v with
  | list xs =>
    have hg : (fun item => PyValue.str (pyStr item)) ∘
        (fun item => PyValue.str (pyStr item)) =
        fun item => PyValue.str (pyStr item) := funext fun i => rfl
    show PyValue.list (List.map _ (List.map _ xs)) = _
    rw [List.map_map, hg]
    rfl
  | none => rfl
  | bool b => rfl
  | int n => rfl
  | float q => rfl
  | str s => rfl
  | dict kvs => rfl

theorem coerceBool_fix (v : PyValue) : coerceBool (coerceBool v) = coerceBool v := by
  cases v with
  | list xs =>
    have hg : (fun item => PyValue.bool (pyBoolOf item)) ∘
        (fun item => PyValue.bool (pyBoolOf item)) =
        fun item => PyValue.bool (pyBoolOf item) := funext fun i => rfl
    show PyValue.list (List.map _ (List.map _ xs)) = _
    rw [List.map_map, hg]
    rfl
  | none => rfl
  | bool b => rfl
  | int n => rfl
  | float q => rfl
  | str s => rfl
  | dict kvs => rfl

theorem coerceFloat_fix (v w : PyValue) (h : coerceFloat v = .ok w) :
    coerceFloat w = .ok w := by
  cases v with
  | list xs =>
    revert h
    show (match mapME (fun item => (pyFloatOf item).map PyValue.float) xs with
      | .ok ys => Except.ok (PyValue.list ys)
      | .error e => Except.error e) = .ok w → _
    cases hm : mapME (fun item => (pyFloatOf item).map PyValue.float) xs with
    | error e => intro h; cases h
    | ok ys =>
      intro h
      cases h
      show (match mapME (fun item => (pyFloatOf item).map PyValue.float) ys with
        | .ok ys2 => Except.ok (PyValue.list ys2)
        | .error e => Except.error e) = _
      rw [mapME_fixed _ ys (mapME_forall_mem _ _ floatElem_fix xs ys hm)]
  | none => cases h
  | bool b => cases h; rfl
  | int n => cases h; rfl
  | float q => cases h; rfl
  | str s =>
    have h2 := floatElem_fix (PyValue.str s) w h
    cases w with
    | list ys => cases hq : pyFloatOf (PyValue.list ys) with
      | error e => rw [hq] at h2; cases h2
      | ok q => cases hq
    | none => cases hq : pyFloatOf PyValue.none with
      | error e => rw [hq] at h2; cases h2
      | ok q => cases hq
    | bool b => exact h2
    | int n => exact h2
    | float q => exact h2
    | str s2 => exact h2
    | dict kvs => cases hq : pyFloatOf (PyValue.dict kvs) with
      | error e => rw [hq] at h2; cases h2
      | ok q => cases hq
  | dict kvs => cases h

theorem coerceInt_fix (v w : PyValue) (h : coerceInt v = .ok w) :
    coerceInt w = .ok w := by
  cases v with
  | list xs =>
    revert h
    show (match mapME (fun item => (pyIntOf item).map PyValue.int) xs with
      | .ok ys => Except.ok (PyValue.list ys)
      | .error e => Except.error e) = .ok w → _
    cases hm : mapME (fun item => (pyIntOf item).map PyValue.int) xs with
    | error e => intro h; cases h
    | ok ys =>
      intro h
      cases h
      show (match mapME (fun item => (pyIntOf item).map PyValue.int) ys with
        | .ok ys2 => Except.ok (PyValue.list ys2)
        | .error e => Except.error e) = _
      rw [mapME_fixed _ ys (mapME_forall_mem _ _ intElem_fix xs ys hm)]
  | none => cases h
  | bool b => cases h; rfl
  | int n => cases h; rfl
  | float q => cases h; rfl
  | str s =>
    have h2 := intElem_fix (PyValue.str s) w h
    cases w with
    | list ys => cases hq : pyIntOf (PyValue.list ys) with
      | error e => rw [hq] at h2; cases h2
      | ok q => cases hq
    | none => cases hq : pyIntOf PyValue.none with
      | error e => rw [hq] at h2; cases h2
      | ok q => cases hq
    | bool b => exact h2
    | int n => exact h2
    | float q => exact h2
    | str s2 => exact h2
    | dict kvs => cases hq : pyIntOf (PyValue.dict kvs) with
      | error e => rw [hq] at h2; cases h2
      | ok q => cases hq
  | dict kvs => cases h

theorem coerceArray_fix (v w : PyValue) (h : coerceArray v = .ok w) :
    coerceArray w = .ok w := by
  cases v with
  | list xs => cases h; rfl
  | none => cases h
  | bool b => cases h
  | int n => cases h
  | float q => cases h
  | str s => cases h
  | dict kvs => cases h

/-- Coercing an already-coerced attribute value again returns it unchanged:
the fixed-point property of `validate_value_type` behind the idempotence
claim and the serialization round trip. -/
theorem validate_value_type_idem (t : String) (v w : PyValue)
    (h : validate_value_type t v = .ok w) :
    validate_value_type t w = .ok w := by
  by_cases hv : pyTruthy v = true
  case neg =>
    rw [validate_value_type, if_neg hv] at h
    cases h
    rw [validate_value_type, if_neg hv]
  case pos =>
    rw [validate_value_type, if_pos hv] at h
    rw [validate_value_type]
    by_cases hw : pyTruthy w = true
    case neg => rw [if_neg hw]
    case pos =>
    rw [if_pos hw]
    by_cases h1 : t = DataType.text.value
    · rw [if_pos h1] at h ⊢
      cases h
      rw [coerceText_fix]
    rw [if_neg h1] at h ⊢
    by_cases h2 : t = DataType.boolean.value
    · rw [if_pos h2] at h ⊢
      cases h
      rw [coerceBool_fix]
    rw [if_neg h2] at h ⊢
    by_cases h3 : t = DataType.number.value ∨ t = DataType.float.value
    · rw [if_pos h3] at h ⊢
      exact coerceFloat_fix v w h
    rw [if_neg h3] at h ⊢
    by_cases h4 : t = DataType.integer.value
    · rw [if_pos h4] at h ⊢
      exact coerceInt_fix v w h
    rw [if_neg h4] at h ⊢
    by_cases h5 : t = DataType.datetime.value
    · rw [if_pos h5] at h ⊢
    rw [if_neg h5] at h ⊢
    by_cases h6 : t = DataType.array.value
    · rw [if_pos h6] at h ⊢
      exact coerceArray_fix v w h
    rw [if_neg h6] at h ⊢
    cases h
    rw [jsonRoundTrip_id]

theorem metadata_parse_fix (t0 : Option String) (v0 : PyValue)
    (m : ContextMetadata) (h : ContextMetadata.parse t0 v0 = .ok m) :
    ContextMetadata.parse m.type m.value = .ok m := by
  cases t0 with
  | none => cases h; rfl
  | some t =>
    revert h
    simp only [ContextMetadata.parse]
    by_cases hp : standardPattern t = true
    · rw [if_pos hp]
      intro h
      cases h
      simp only
      rw [if_pos hp]
    · rw [if_neg hp]
      intro h
      cases h

theorem parseMdEntry_fix (x : String × RawMetadata)
    (r : String × ContextMetadata) (h : parseMdEntry x = .ok r) :
    parseMdEntry (rawOfMdEntry r) = .ok r := by
  revert h
  simp only [parseMdEntry]
  cases hm : ContextMetadata.parse x.2.type x.2.value with
  | error e => intro h; cases h
  | ok m =>
    intro h
    cases h
    simp only [rawOfMdEntry]
    rw [metadata_parse_fix x.2.type x.2.value m hm]

theorem attribute_parse_fix (raw : RawAttribute) (a : ContextAttribute)
    (h : ContextAttribute.parse raw = .ok a) :
    ContextAttribute.parse (ContextAttribute.rawOf a) = .ok a := by
  rw [ContextAttribute.parse] at h
  by_cases hp : standardPattern (raw.type.getD DataType.text.value) = true
  case neg => rw [if_neg hp] at h; cases h
  case pos =>
    rw [if_pos hp] at h
    cases hval : validate_value_type (raw.type.getD DataType.text.value)
        raw.value with
    | error e => rw [hval] at h; cases h
    | ok v =>
      rw [hval] at h
      cases hmd : mapME parseMdEntry raw.metadata with
      | error e => rw [hmd] at h; cases h
      | ok md =>
        rw [hmd] at h
        cases h
        rw [ContextAttribute.parse]
        simp only [ContextAttribute.rawOf, Option.getD_some]
        rw [if_pos hp, validate_value_type_idem _ _ _ hval,
          mapME_map_ok rawOfMdEntry parseMdEntry md
            (mapME_forall_mem parseMdEntry _ parseMdEntry_fix
              raw.metadata md hmd)]

theorem parseAttrEntry_fix (x : String × RawAttribute)
    (r : String × ContextAttribute) (h : parseAttrEntry x = .ok r) :
    parseAttrEntry (rawOfAttrEntry r) = .ok r := by
  revert h
  simp only [parseAttrEntry]
  cases ha : ContextAttribute.parse x.2 with
  | error e => intro h; cases h
  | ok a =>
    intro h
    cases h
    simp only [rawOfAttrEntry]
    rw [attribute_parse_fix x.2 a ha]

theorem entity_parse_fix (id ty : String)
    (data : List (String × RawAttribute)) (e : ContextEntity)
    (h : ContextEntity.parse id ty data = .ok e) :
    ContextEntity.parse e.id e.type e.wireAttrs = .ok e := by
  rw [ContextEntity.parse] at h
  by_cases hp : (standardPattern id && standardPattern ty) = true
  case neg => rw [if_neg hp] at h; cases h
  case pos =>
    rw [if_pos hp] at h
    cases hm : mapME parseAttrEntry data with
    | error e2 => rw [hm] at h; cases h
    | ok attrs =>
      rw [hm] at h
      cases h
      rw [ContextEntity.parse, if_pos hp]
      show (match mapME parseAttrEntry
          (attrs.map rawOfAttrEntry) with
        | .error e2 => Except.error e2
        | .ok l => Except.ok (ContextEntity.mk id ty l)) = _
      rw [mapME_map_ok rawOfAttrEntry parseAttrEntry attrs
        (mapME_forall_mem parseAttrEntry _ parseAttrEntry_fix data attrs hm)]

theorem pyFloatOf_error (v : PyValue) (e : Err) (h : pyFloatOf v = .error e) :
    e = .validation := by
  cases v with
  | float q => cases h
  | bool b => cases h
  | int n => cases h
  | str s =>
    revert h
    simp only [pyFloatOf]
    cases parseFloatStr s with
    | some q => intro h; cases h
    | none => intro h; cases h; rfl
  | none => cases h; rfl
  | list xs => cases h; rfl
  | dict kvs => cases h; rfl

theorem pyIntOf_error (v : PyValue) (e : Err) (h : pyIntOf v = .error e) :
    e = .validation := by
  cases v with
  | float q => cases h
  | bool b => cases h
  | int n => cases h
  | str s =>
    revert h
    simp only [pyIntOf]
    cases parseIntStr s with
    | some n => intro h; cases h
    | none => intro h; cases h; rfl
  | none => cases h; rfl
  | list xs => cases h; rfl
  | dict kvs => cases h; rfl

theorem floatElem_error (x : PyValue) (e : Err)
    (h : (pyFloatOf x).map PyValue.float = .error e) : e = .validation := by
  cases hq : pyFloatOf x with
  | ok q => rw [hq] at h; cases h
  | error e2 =>
    rw [hq] at h
    cases h
    exact pyFloatOf_error x _ hq

theorem intElem_error (x : PyValue) (e : Err)
    (h : (pyIntOf x).map PyValue.int = .error e) : e = .validation := by
  cases hq : pyIntOf x with
  | ok n => rw [hq] at h; cases h
  | error e2 =>
    rw [hq] at h
    cases h
    exact pyIntOf_error x _ hq

theorem coerceFloat_error (v : PyValue) (e : Err)
    (h : coerceFloat v = .error e) : e = .validation := by
  cases v with
  | list xs =>
    revert h
    show (match mapME (fun item => (pyFloatOf item).map PyValue.float) xs with
      | .ok ys => Except.ok (PyValue.list ys)
      | .error e2 => Except.error e2) = _ → _
    cases hm : mapME (fun item => (pyFloatOf item).map PyValue.float) xs with
    | ok ys => intro h; cases h
    | error e2 =>
      intro h
      cases h
      obtain ⟨x, _, hx⟩ := mapME_error_mem _ xs _ hm
      exact floatElem_error x _ hx
  | none => simp only [coerceFloat] at h; exact floatElem_error _ _ h
  | bool b => simp only [coerceFloat] at h; exact floatElem_error _ _ h
  | int n => simp only [coerceFloat] at h; exact floatElem_error _ _ h
  | float q => simp only [coerceFloat] at h; exact floatElem_error _ _ h
  | str s => simp only [coerceFloat] at h; exact floatElem_error _ _ h
  | dict kvs => simp only [coerceFloat] at h; exact floatElem_error _ _ h

theorem coerceInt_error (v : PyValue) (e : Err)
    (h : coerceInt v = .error e) : e = .validation := by
  cases v with
  | list xs =>
    revert h
    show (match mapME (fun item => (pyIntOf item).map PyValue.int) xs with
      | .ok ys => Except.ok (PyValue.list ys)
      | .error e2 => Except.error e2) = _ → _
    cases hm : mapME (fun item => (pyIntOf item).map PyValue.int) xs with
    | ok ys => intro h; cases h
    | error e2 =>
      intro h
      cases h
      obtain ⟨x, _, hx⟩ := mapME_error_mem _ xs _ hm
      exact intElem_error x _ hx
  | none => simp only [coerceInt] at h; exact intElem_error _ _ h
  | bool b => simp only [coerceInt] at h; exact intElem_error _ _ h
  | int n => simp only [coerceInt] at h; exact intElem_error _ _ h
  | float q => simp only [coerceInt] at h; exact intElem_error _ _ h
  | str s => simp only [coerceInt] at h; exact intElem_error _ _ h
  | dict kvs => simp only [coerceInt] at h; exact intElem_error _ _ h

theorem coerceArray_error (v : PyValue) (e : Err)
    (h : coerceArray v = .error e) : e = .validation := by
  cases v with
  | list xs => cases h
  | none => cases h; rfl
  | bool b => cases h; rfl
  | int n => cases h; rfl
  | float q => cases h; rfl
  | str s => cases h; rfl
  | dict kvs => cases h; rfl

theorem validate_value_type_error (t : String) (v : PyValue) (e : Err)
    (h : validate_value_type t v = .error e) : e = .validation := by
  by_cases hv : pyTruthy v = true
  case neg => rw [validate_value_type, if_neg hv] at h; cases h
  case pos =>
    rw [validate_value_type, if_pos hv] at h
    by_cases h1 : t = DataType.text.value
    · rw [if_pos h1] at h; cases h
    rw [if_neg h1] at h
    by_cases h2 : t = DataType.boolean.value
    · rw [if_pos h2] at h; cases h
    rw [if_neg h2] at h
    by_cases h3 : t = DataType.number.value ∨ t = DataType.float.value
    · rw [if_pos h3] at h
      exact coerceFloat_error v e h
    rw [if_neg h3] at h
    by_cases h4 : t = DataType.integer.value
    · rw [if_pos h4] at h
      exact coerceInt_error v e h
    rw [if_neg h4] at h
    by_cases h5 : t = DataType.datetime.value
    · rw [if_pos h5] at h; cases h
    rw [if_neg h5] at h
    by_cases h6 : t = DataType.array.value
    · rw [if_pos h6] at h
      exact coerceArray_error v e h
    rw [if_neg h6] at h
    cases h

theorem metadata_parse_error (t0 : Option String) (v0 : PyValue)
    (e : Err) (h : ContextMetadata.parse t0 v0 = .error e) :
    e = .validation := by
  cases t0 with
  | none => cases h
  | some t =>
    revert h
    simp only [ContextMetadata.parse]
    by_cases hp : standardPattern t = true
    · rw [if_pos hp]; intro h; cases h
    · rw [if_neg hp]; intro h; cases h; rfl

theorem parseMdEntry_error (x : String × RawMetadata) (e : Err)
    (h : parseMdEntry x = .error e) : e = .validation := by
  revert h
  simp only [parseMdEntry]
  cases hm : ContextMetadata.parse x.2.type x.2.value with
  | ok m => intro h; cases h
  | error e2 =>
    intro h
    cases h
    exact metadata_parse_error _ _ _ hm

theorem attribute_parse_error (raw : RawAttribute) (e : Err)
    (h : ContextAttribute.parse raw = .error e) : e = .validation := by
  rw [ContextAttribute.parse] at h
  by_cases hp : standardPattern (raw.type.getD DataType.text.value) = true
  case neg => rw [if_neg hp] at h; cases h; rfl
  case pos =>
    rw [if_pos hp] at h
    cases hval : validate_value_type (raw.type.getD DataType.text.value)
        raw.value with
    | error e2 =>
      rw [hval] at h
      cases h
      exact validate_value_type_error _ _ _ hval
    | ok v =>
      rw [hval] at h
      cases hmd : mapME parseMdEntry raw.metadata with
      | error e2 =>
        rw [hmd] at h
        cases h
        obtain ⟨x, _, hx⟩ := mapME_error_mem _ raw.metadata _ hmd
        exact parseMdEntry_error x _ hx
      | ok md => rw [hmd] at h; cases h

theorem parseAttrEntry_error (x : String × RawAttribute) (e : Err)
    (h : parseAttrEntry x = .error e) : e = .validation := by
  revert h
  simp only [parseAttrEntry]
  cases ha : ContextAttribute.parse x.2 with
  | ok a => intro h; cases h
  | error e2 =>
    intro h
    cases h
    exact attribute_parse_error x.2 _ ha

theorem named_attribute_parse_error (name : String)
    (raw : RawAttribute) (e : Err)
    (h : NamedContextAttribute.parse name raw = .error e) :
    e = .validation := by
  rw [NamedContextAttribute.parse] at h
  cases ha : ContextAttribute.parse raw with
  | error e2 =>
    rw [ha] at h
    cases h
    exact attribute_parse_error raw _ ha
  | ok a =>
    rw [ha] at h
    by_cases hp : stringProtect name = true
    · simp only [if_pos hp] at h
      cases h
    · simp only [if_neg hp] at h
      cases h
      rfl

theorem get_attributes_dict_eq (e : ContextEntity)
    (wl bl : Option (List DataType))
    (hguard : (wl.isSome && bl.isSome) = false)
    (hwf : ∀ p ∈ e.attrs,
      ContextAttribute.parse (ContextAttribute.rawOf p.2) = .ok p.2) :
    e.get_attributes wl bl .dict =
      .ok (.inr (e.attrs.filter fun ka =>
        ((attributeTypesFor wl bl).map DataType.value).contains ka.2.type)) := by
  rw [ContextEntity.get_attributes, if_neg (by simp [hguard])]
  show (match mapME parseAttrEntry
      (selectAttrs e (attributeTypesFor wl bl)) with
    | .ok l => Except.ok (Sum.inr l)
    | .error e2 => (.error e2 :
        Except Err (Sum (List NamedContextAttribute)
          (List (String × ContextAttribute))))) = _
  have hsel : selectAttrs e (attributeTypesFor wl bl) =
      (e.attrs.filter fun ka =>
        ((attributeTypesFor wl bl).map DataType.value).contains
          ka.2.type).map rawOfAttrEntry := by
    rw [selectAttrs, ContextEntity.wireAttrs, List.filter_map]
    rfl
  rw [hsel, mapME_map_ok rawOfAttrEntry parseAttrEntry _ fun a ha => by
    simp only [parseAttrEntry, rawOfAttrEntry]
    rw [hwf a (List.mem_of_mem_filter ha)]]

theorem get_attributes_no_assertion (e : ContextEntity)
    (wl bl : Option (List DataType)) (fmt : PropertyFormat)
    (hno : wl = Option.none ∨ bl = Option.none) :
    e.get_attributes wl bl fmt ≠ .error .assertion := by
  have hguard : (wl.isSome && bl.isSome) = false := by
    rcases hno with h | h <;> subst h <;> simp
  rw [ContextEntity.get_attributes, if_neg (by simp [hguard])]
  cases fmt with
  | dict =>
    show (match mapME parseAttrEntry
        (selectAttrs e (attributeTypesFor wl bl)) with
      | .ok l => Except.ok (Sum.inr l)
      | .error e2 => (.error e2 :
          Except Err (Sum (List NamedContextAttribute)
            (List (String × ContextAttribute))))) ≠ _
    cases hm : mapME parseAttrEntry (selectAttrs e (attributeTypesFor wl bl)) with
    | ok l => simp
    | error e2 =>
      obtain ⟨x, _, hx⟩ := mapME_error_mem _ _ _ hm
      have he2 := parseAttrEntry_error x _ hx
      subst he2
      simp
  | list =>
    show (match mapME (fun kr : String × RawAttribute =>
        NamedContextAttribute.parse kr.1 kr.2)
        (selectAttrs e (attributeTypesFor wl bl)) with
      | .ok l => Except.ok (Sum.inl l)
      | .error e2 => (.error e2 :
          Except Err (Sum (List NamedContextAttribute)
            (List (String × ContextAttribute))))) ≠ _
    cases hm : mapME (fun kr : String × RawAttribute =>
        NamedContextAttribute.parse kr.1 kr.2)
        (selectAttrs e (attributeTypesFor wl bl)) with
    | ok l => simp
    | error e2 =>
      obtain ⟨x, _, hx⟩ := mapME_error_mem _ _ _ hm
      have he2 := named_attribute_parse_error x.1 x.2 _ hx
      subst he2
      simp

theorem deleteAttr_ok (e : ContextEntity) (n : String)
    (hmem : n ∈ e.attrs.map Prod.fst) :
    e.deleteAttr n =
      .ok ⟨e.id, e.type, e.attrs.filter fun p => decide (p.1 ≠ n)⟩ := by
  rw [ContextEntity.deleteAttr, if_pos hmem]

theorem deleteAttr_missing (e : ContextEntity) (n : String)
    (hmem : n ∉ e.attrs.map Prod.fst) :
    e.deleteAttr n = .error (.lookup n) := by
  rw [ContextEntity.deleteAttr, if_neg hmem]

theorem deleteRun_all_present (names : List String) :
    ∀ e : ContextEntity, names.Nodup →
      (∀ n ∈ names, n ∈ e.attrs.map Prod.fst) →
      deleteRun e names =
        (⟨e.id, e.type, e.attrs.filter fun p => decide (p.1 ∉ names)⟩,
          Option.none) := by
  induction names with
  | nil =>
    intro e _ _
    simp only [deleteRun]
    have : (e.attrs.filter fun p => decide (p.1 ∉ ([] : List String)))
        = e.attrs := by
      rw [List.filter_congr (q := fun _ => true) fun a _ => by simp,
        List.filter_true]
    rw [this]
  | cons n rest ih =>
    intro e hnd hall
    simp only [deleteRun]
    rw [deleteAttr_ok e n (hall n (List.mem_cons_self n rest))]
    have hall2 : ∀ m ∈ rest,
        m ∈ (e.attrs.filter fun p => decide (p.1 ≠ n)).map Prod.fst := by
      intro m hm
      obtain ⟨pair, hpair, hfst⟩ := List.mem_map.mp
        (hall m (List.mem_cons_of_mem n hm))
      refine List.mem_map.mpr ⟨pair, List.mem_filter.mpr ⟨hpair, ?_⟩, hfst⟩
      have hne : m ≠ n := fun hc => (List.nodup_cons.mp hnd).1 (hc ▸ hm)
      simp [hfst, hne]
    show deleteRun
        ⟨e.id, e.type, e.attrs.filter fun p => decide (p.1 ≠ n)⟩ rest = _
    rw [ih _ (List.nodup_cons.mp hnd).2 hall2]
    simp only [List.filter_filter]
    have hpred : ∀ a ∈ e.attrs,
        (decide (a.1 ∉ rest) && decide (a.1 ≠ n)) =
          decide (a.1 ∉ n :: rest) := by
      intro a _
      by_cases h1 : a.1 = n <;> by_cases h2 : a.1 ∈ rest <;>
        simp [h1, h2, List.mem_cons]
    rw [List.filter_congr hpred]

theorem deleteRun_first_missing (pre : List String) :
    ∀ (e : ContextEntity) (y : String) (post : List String), pre.Nodup →
      (∀ n ∈ pre, n ∈ e.attrs.map Prod.fst) →
      y ∉ e.attrs.map Prod.fst →
      deleteRun e (pre ++ y :: post) =
        (⟨e.id, e.type, e.attrs.filter fun p => decide (p.1 ∉ pre)⟩,
          some (.lookup y)) := by
  induction pre with
  | nil =>
    intro e y post _ _ hy
    simp only [List.nil_append, deleteRun]
    rw [deleteAttr_missing e y hy]
    have : (e.attrs.filter fun p => decide (p.1 ∉ ([] : List String)))
        = e.attrs := by
      rw [List.filter_congr (q := fun _ => true) fun a _ => by simp,
        List.filter_true]
    rw [this]
  | cons n rest ih =>
    intro e y post hnd hall hy
    simp only [List.cons_append, deleteRun]
    rw [deleteAttr_ok e n (hall n (List.mem_cons_self n rest))]
    have hall2 : ∀ m ∈ rest,
        m ∈ (e.attrs.filter fun p => decide (p.1 ≠ n)).map Prod.fst := by
      intro m hm
      obtain ⟨pair, hpair, hfst⟩ := List.mem_map.mp
        (hall m (List.mem_cons_of_mem n hm))
      refine List.mem_map.mpr ⟨pair, List.mem_filter.mpr ⟨hpair, ?_⟩, hfst⟩
      have hne : m ≠ n := fun hc => (List.nodup_cons.mp hnd).1 (hc ▸ hm)
      simp [hfst, hne]
    have hy2 : y ∉ (e.attrs.filter fun p => decide (p.1 ≠ n)).map Prod.fst :=
      fun hc => by
        obtain ⟨pair, hpair, hfst⟩ := List.mem_map.mp hc
        exact hy (List.mem_map.mpr
          ⟨pair, List.mem_of_mem_filter hpair, hfst⟩)
    show deleteRun ⟨e.id, e.type, e.attrs.filter fun p => decide (p.1 ≠ n)⟩
        (rest ++ y :: post) = _
    rw [ih _ y post (List.nodup_cons.mp hnd).2 hall2 hy2]
    simp only [List.filter_filter]
    have hpred : ∀ a ∈ e.attrs,
        (decide (a.1 ∉ rest) && decide (a.1 ≠ n)) =
          decide (a.1 ∉ n :: rest) := by
      intro a _
      by_cases h1 : a.1 = n <;> by_cases h2 : a.1 ∈ rest <;>
        simp [h1, h2, List.mem_cons]
    rw [List.filter_congr hpred]

theorem deleteRun_some_missing (names : List String) :
    ∀ e : ContextEntity, (∃ n ∈ names, n ∉ e.attrs.map Prod.fst) →
      ∃ m, (deleteRun e names).2 = some (.lookup m) := by
  induction names with
  | nil =>
    intro e h
    obtain ⟨n, hn, _⟩ := h
    cases hn
  | cons n rest ih =>
    intro e h
    simp only [deleteRun]
    by_cases hn : n ∈ e.attrs.map Prod.fst
    · rw [deleteAttr_ok e n hn]
      show ∃ m, (deleteRun
        ⟨e.id, e.type, e.attrs.filter fun p => decide (p.1 ≠ n)⟩ rest).2 =
          some (.lookup m)
      obtain ⟨m, hm, hmiss⟩ := h
      rcases List.mem_cons.mp hm with hm | hm
      · exact absurd (hm ▸ hn) hmiss
      · refine ih _ ⟨m, hm, fun hc => hmiss ?_⟩
        obtain ⟨pair, hpair, hfst⟩ := List.mem_map.mp hc
        exact List.mem_map.mpr ⟨pair, List.mem_of_mem_filter hpair, hfst⟩
    · rw [deleteAttr_missing e n hn]
      exact ⟨n, rfl⟩

theorem entity_attrs_wf (id ty : String)
    (data : List (String × RawAttribute)) (e : ContextEntity)
    (h : ContextEntity.parse id ty data = .ok e) :
    ∀ p ∈ e.attrs,
      ContextAttribute.parse (ContextAttribute.rawOf p.2) = .ok p.2 := by
  rw [ContextEntity.parse] at h
  by_cases hp : (standardPattern id && standardPattern ty) = true
  case neg => rw [if_neg hp] at h; cases h
  case pos =>
    rw [if_pos hp] at h
    cases hm : mapME parseAttrEntry data with
    | error e2 => rw [hm] at h; cases h
    | ok attrs =>
      rw [hm] at h
      cases h
      intro p hp2
      refine mapME_forall_mem parseAttrEntry
        (fun r : String × ContextAttribute =>
          ContextAttribute.parse (ContextAttribute.rawOf r.2) = .ok r.2)
        ?_ data attrs hm p hp2
      intro x r hxr
      revert hxr
      simp only [parseAttrEntry]
      cases ha : ContextAttribute.parse x.2 with
      | error e2 => intro hxr; cases hxr
      | ok a =>
        intro hxr
        cases hxr
        exact attribute_parse_fix x.2 a ha

/-! The claim theorems. -/

/-- C1: for a ContextAttribute constructed with a non-empty (truthy) value,
the stored value is the declared type coercion of the input: under Text a
scalar becomes its string form and a list the element-wise string forms;
under Number or Float a floating-point number (element-wise for lists);
under Integer an integer (element-wise for lists); under Array a list input
is stored unchanged.  In particular value 20 under Text is stored as "20",
under Number as 20.0, and the list [20, 20] under Array unchanged. -/
theorem C1_value_coercion :
    (∀ xs : List PyValue, xs ≠ [] →
      validate_value_type DataType.text.value (.list xs) =
        .ok (.list (xs.map fun item => .str (pyStr item))))
    ∧ (∀ v : PyValue, pyTruthy v = true → (∀ xs, v ≠ .list xs) →
      validate_value_type DataType.text.value v = .ok (.str (pyStr v)))
    ∧ (∀ (v : PyValue) (q : ℚ), pyTruthy v = true → (∀ xs, v ≠ .list xs) →
      pyFloatOf v = .ok q →
      validate_value_type DataType.number.value v = .ok (.float q)
      ∧ validate_value_type DataType.float.value v = .ok (.float q))
    ∧ (∀ xs ys : List PyValue, xs ≠ [] →
      mapME (fun item => (pyFloatOf item).map PyValue.float) xs = .ok ys →
      validate_value_type DataType.number.value (.list xs) = .ok (.list ys)
      ∧ validate_value_type DataType.float.value (.list xs) = .ok (.list ys))
    ∧ (∀ (v : PyValue) (n : Int), pyTruthy v = true → (∀ xs, v ≠ .list xs) →
      pyIntOf v = .ok n →
      validate_value_type DataType.integer.value v = .ok (.int n))
    ∧ (∀ xs ys : List PyValue, xs ≠ [] →
      mapME (fun item => (pyIntOf item).map PyValue.int) xs = .ok ys →
      validate_value_type DataType.integer.value (.list xs) = .ok (.list ys))
    ∧ (∀ xs : List PyValue, xs ≠ [] →
      validate_value_type DataType.array.value (.list xs) = .ok (.list xs))
    ∧ ContextAttribute.parse (rawAttr DataType.text.value (.int 20)) =
        .ok ⟨"Text", .str "20", []⟩
    ∧ ContextAttribute.parse (rawAttr DataType.number.value (.int 20)) =
        .ok ⟨"Number", .float 20, []⟩
    ∧ ContextAttribute.parse
        (rawAttr DataType.array.value (.list [.int 20, .int 20])) =
        .ok ⟨"Array", .list [.int 20, .int 20], []⟩ := by
  refine ⟨?_, ?_, ?_, ?_, ?_, ?_, ?_, rfl, rfl, rfl⟩
  · intro xs hxs
    have ht : pyTruthy (.list xs) = true := by simp [pyTruthy, hxs]
    rw [validate_value_type, if_pos ht]
    rfl
  · intro v hv hnl
    rw [validate_value_type, if_pos hv, if_pos rfl]
    cases v with
    | list xs => exact absurd rfl (hnl xs)
    | none => rfl
    | bool b => rfl
    | int n => rfl
    | float q => rfl
    | str s => rfl
    | dict kvs => rfl
  · intro v q hv hnl hq
    constructor
    all_goals
      rw [validate_value_type, if_pos hv, if_neg (by decide),
        if_neg (by decide)]
    · rw [if_pos (Or.inl rfl)]
      cases v with
      | list xs => exact absurd rfl (hnl xs)
      | none => cases hq
      | bool b => rw [show coerceFloat (PyValue.bool b) =
          (pyFloatOf (PyValue.bool b)).map PyValue.float from rfl, hq]; rfl
      | int n => rw [show coerceFloat (PyValue.int n) =
          (pyFloatOf (PyValue.int n)).map PyValue.float from rfl, hq]; rfl
      | float q2 => rw [show coerceFloat (PyValue.float q2) =
          (pyFloatOf (PyValue.float q2)).map PyValue.float from rfl, hq]; rfl
      | str s => rw [show coerceFloat (PyValue.str s) =
          (pyFloatOf (PyValue.str s)).map PyValue.float from rfl, hq]; rfl
      | dict kvs => cases hq
    · rw [if_pos (Or.inr rfl)]
      cases v with
      | list xs => exact absurd rfl (hnl xs)
      | none => cases hq
      | bool b => rw [show coerceFloat (PyValue.bool b) =
          (pyFloatOf (PyValue.bool b)).map PyValue.float from rfl, hq]; rfl
      | int n => rw [show coerceFloat (PyValue.int n) =
          (pyFloatOf (PyValue.int n)).map PyValue.float from rfl, hq]; rfl
      | float q2 => rw [show coerceFloat (PyValue.float q2) =
          (pyFloatOf (PyValue.float q2)).map PyValue.float from rfl, hq]; rfl
      | str s => rw [show coerceFloat (PyValue.str s) =
          (pyFloatOf (PyValue.str s)).map PyValue.float from rfl, hq]; rfl
      | dict kvs => cases hq
  · intro xs ys hxs hys
    have ht : pyTruthy (.list xs) = true := by simp [pyTruthy, hxs]
    constructor
    · rw [validate_value_type, if_pos ht, if_neg (by decide),
        if_neg (by decide), if_pos (Or.inl rfl)]
      show (match mapME (fun item => (pyFloatOf item).map PyValue.float) xs
          with
        | .ok ys2 => Except.ok (PyValue.list ys2)
        | .error e => (.error e : Except Err PyValue)) = _
      rw [hys]
    · rw [validate_value_type, if_pos ht, if_neg (by decide),
        if_neg (by decide), if_pos (Or.inr rfl)]
      show (match mapME (fun item => (pyFloatOf item).map PyValue.float) xs
          with
        | .ok ys2 => Except.ok (PyValue.list ys2)
        | .error e => (.error e : Except Err PyValue)) = _
      rw [hys]
  · intro v n hv hnl hn
    rw [validate_value_type, if_pos hv, if_neg (by decide),
      if_neg (by decide), if_neg (by decide), if_pos rfl]
    cases v with
    | list xs => exact absurd rfl (hnl xs)
    | none => cases hn
    | bool b => rw [show coerceInt (PyValue.bool b) =
        (pyIntOf (PyValue.bool b)).map PyValue.int from rfl, hn]; rfl
    | int n2 => rw [show coerceInt (PyValue.int n2) =
        (pyIntOf (PyValue.int n2)).map PyValue.int from rfl, hn]; rfl
    | float q => rw [show coerceInt (PyValue.float q) =
        (pyIntOf (PyValue.float q)).map PyValue.int from rfl, hn]; rfl
    | str s => rw [show coerceInt (PyValue.str s) =
        (pyIntOf (PyValue.str s)).map PyValue.int from rfl, hn]; rfl
    | dict kvs => cases hn
  · intro xs ys hxs hys
    have ht : pyTruthy (.list xs) = true := by simp [pyTruthy, hxs]
    rw [validate_value_type, if_pos ht, if_neg (by decide),
      if_neg (by decide), if_neg (by decide), if_pos rfl]
    show (match mapME (fun item => (pyIntOf item).map PyValue.int) xs with
      | .ok ys2 => Except.ok (PyValue.list ys2)
      | .error e => (.error e : Except Err PyValue)) = _
    rw [hys]
  · intro xs hxs
    have ht : pyTruthy (.list xs) = true := by simp [pyTruthy, hxs]
    rw [validate_value_type, if_pos ht, if_neg (by decide),
      if_neg (by decide), if_neg (by decide), if_neg (by decide),
      if_neg (by decide), if_pos rfl]
    rfl

/-- Witness for C1: the coercion clauses evaluated at concrete inputs. -/
theorem C1_value_coercion_witness :
    validate_value_type DataType.text.value (.list [.int 7]) =
      .ok (.list [.str "7"])
    ∧ validate_value_type DataType.text.value (.int 5) = .ok (.str "5")
    ∧ validate_value_type DataType.number.value (.int 5) = .ok (.float 5)
    ∧ validate_value_type DataType.float.value (.list [.int 5]) =
      .ok (.list [.float 5])
    ∧ validate_value_type DataType.integer.value (.float 5) = .ok (.int 5)
    ∧ validate_value_type DataType.integer.value (.list [.bool true]) =
      .ok (.list [.int 1])
    ∧ validate_value_type DataType.array.value (.list [.int 1]) =
      .ok (.list [.int 1]) :=
  ⟨C1_value_coercion.1 [.int 7] (List.cons_ne_nil _ _),
   C1_value_coercion.2.1 (.int 5) rfl (fun _ h => nomatch h),
   (C1_value_coercion.2.2.1 (.int 5) 5 rfl (fun _ h => nomatch h) rfl).1,
   (C1_value_coercion.2.2.2.1 [.int 5] [.float 5]
     (List.cons_ne_nil _ _) rfl).2,
   C1_value_coercion.2.2.2.2.1 (.float 5) 5 rfl (fun _ h => nomatch h) rfl,
   C1_value_coercion.2.2.2.2.2.1 [.bool true] [.int 1]
     (List.cons_ne_nil _ _) rfl,
   C1_value_coercion.2.2.2.2.2.2.1 [.int 1] (List.cons_ne_nil _ _)⟩

/-- C2: value coercion is idempotent for every declared type and every
accepted raw value, and re-constructing a ContextAttribute from an already
validated one (same type, already-coerced value, normalized metadata)
succeeds and yields an equal attribute. -/
theorem C2_coercion_idempotent :
    (∀ (t : String) (v w : PyValue), validate_value_type t v = .ok w →
      validate_value_type t w = .ok w)
    ∧ (∀ (raw : RawAttribute) (a : ContextAttribute),
      ContextAttribute.parse raw = .ok a →
      ContextAttribute.parse (ContextAttribute.rawOf a) = .ok a) :=
  ⟨validate_value_type_idem, attribute_parse_fix⟩

/-- Witness for C2: idempotence evaluated at a Number coercion of the
string "20" and at the reconstruction of an Integer attribute parsed from a
float. -/
theorem C2_coercion_idempotent_witness :
    validate_value_type DataType.number.value (.float 20) = .ok (.float 20)
    ∧ ContextAttribute.parse
        (ContextAttribute.rawOf ⟨"Integer", .int 20, []⟩) =
        .ok ⟨"Integer", .int 20, []⟩ :=
  ⟨C2_coercion_idempotent.1 DataType.number.value (.int 20) (.float 20) rfl,
   C2_coercion_idempotent.2 (rawAttr "Integer" (.float 20))
     ⟨"Integer", .int 20, []⟩ rfl⟩

/-- C3: re-parsing the serialized wire form of a validated ContextEntity
reproduces an equal entity: for every entity obtained from a flat JSON
object, parsing `e.dict()` again is the identity. -/
theorem C3_entity_round_trip :
    ∀ (id ty : String) (data : List (String × RawAttribute))
      (e : ContextEntity), ContextEntity.parse id ty data = .ok e →
      ContextEntity.parse e.id e.type e.wireAttrs = .ok e :=
  entity_parse_fix

/-- Witness for C3: a concrete entity with one attribute of every supported
type (including metadata, a Relationship and a free-form type) parses, and
re-parsing its wire form reproduces it. -/
theorem C3_entity_round_trip_witness :
    ContextEntity.parse "MyId" "MyType"
      [("t1", rawAttr "Text" (.int 20)),
       ("t2", rawAttr "Boolean" (.int 3)),
       ("t3", ⟨some "Number", .int 20, [("accuracy", ⟨some "Text", .str "x"⟩)]⟩),
       ("t4", rawAttr "Float" (.list [.int 1, .int 2])),
       ("t5", rawAttr "Integer" (.float 2)),
       ("t6", rawAttr "DateTime" (.str "2021-09-21T10:00:00")),
       ("t7", rawAttr "Array" (.list [.int 1])),
       ("t8", rawAttr "StructuredValue" (.dict [("a", .int 1)])),
       ("t9", rawAttr "Relationship" (.str "OtherEntity")),
       ("t10", rawAttr "customType123" (.str "free"))] =
      .ok ⟨"MyId", "MyType",
        [("t1", ⟨"Text", .str "20", []⟩),
         ("t2", ⟨"Boolean", .bool true, []⟩),
         ("t3", ⟨"Number", .float 20, [("accuracy", ⟨some "Text", .str "x"⟩)]⟩),
         ("t4", ⟨"Float", .list [.float 1, .float 2], []⟩),
         ("t5", ⟨"Integer", .int 2, []⟩),
         ("t6", ⟨"DateTime", .str "2021-09-21T10:00:00", []⟩),
         ("t7", ⟨"Array", .list [.int 1], []⟩),
         ("t8", ⟨"StructuredValue", .dict [("a", .int 1)], []⟩),
         ("t9", ⟨"Relationship", .str "OtherEntity", []⟩),
         ("t10", ⟨"customType123", .str "free", []⟩)]⟩
    ∧ ContextEntity.parse "MyId" "MyType"
        [("t1", ⟨some "Text", .str "20", []⟩),
         ("t2", ⟨some "Boolean", .bool true, []⟩),
         ("t3", ⟨some "Number", .float 20,
           [("accuracy", ⟨some "Text", .str "x"⟩)]⟩),
         ("t4", ⟨some "Float", .list [.float 1, .float 2], []⟩),
         ("t5", ⟨some "Integer", .int 2, []⟩),
         ("t6", ⟨some "DateTime", .str "2021-09-21T10:00:00", []⟩),
         ("t7", ⟨some "Array", .list [.int 1], []⟩),
         ("t8", ⟨some "StructuredValue", .dict [("a", .int 1)], []⟩),
         ("t9", ⟨some "Relationship", .str "OtherEntity", []⟩),
         ("t10", ⟨some "customType123", .str "free", []⟩)] =
      .ok ⟨"MyId", "MyType",
        [("t1", ⟨"Text", .str "20", []⟩),
         ("t2", ⟨"Boolean", .bool true, []⟩),
         ("t3", ⟨"Number", .float 20, [("accuracy", ⟨some "Text", .str "x"⟩)]⟩),
         ("t4", ⟨"Float", .list [.float 1, .float 2], []⟩),
         ("t5", ⟨"Integer", .int 2, []⟩),
         ("t6", ⟨"DateTime", .str "2021-09-21T10:00:00", []⟩),
         ("t7", ⟨"Array", .list [.int 1], []⟩),
         ("t8", ⟨"StructuredValue", .dict [("a", .int 1)], []⟩),
         ("t9", ⟨"Relationship", .str "OtherEntity", []⟩),
         ("t10", ⟨"customType123", .str "free", []⟩)]⟩ :=
  ⟨rfl,
   C3_entity_round_trip "MyId" "MyType"
     [("t1", rawAttr "Text" (.int 20)),
      ("t2", rawAttr "Boolean" (.int 3)),
      ("t3", ⟨some "Number", .int 20, [("accuracy", ⟨some "Text", .str "x"⟩)]⟩),
      ("t4", rawAttr "Float" (.list [.int 1, .int 2])),
      ("t5", rawAttr "Integer" (.float 2)),
      ("t6", rawAttr "DateTime" (.str "2021-09-21T10:00:00")),
      ("t7", rawAttr "Array" (.list [.int 1])),
      ("t8", rawAttr "StructuredValue" (.dict [("a", .int 1)])),
      ("t9", rawAttr "Relationship" (.str "OtherEntity")),
      ("t10", rawAttr "customType123" (.str "free"))] _ rfl⟩

/-- C4, counterexample: an entity parsed with one attribute whose declared
type is the free-form string "customDataType123" (not Relationship) is
returned by neither get_properties nor get_relationships, so the claimed
partition fails for free-form-typed attributes. -/
theorem C4_counterexample :
    ContextEntity.parse "MyId" "MyType"
      [("a", rawAttr "customDataType123" (.int 5))] =
      .ok ⟨"MyId", "MyType", [("a", ⟨"customDataType123", .int 5, []⟩)]⟩
    ∧ ("a", (⟨"customDataType123", .int 5, []⟩ : ContextAttribute)) ∈
        (⟨"MyId", "MyType", [("a", ⟨"customDataType123", .int 5, []⟩)]⟩ :
          ContextEntity).attrs
    ∧ "customDataType123" ≠ DataType.relationship.value
    ∧ ContextEntity.get_properties
        ⟨"MyId", "MyType", [("a", ⟨"customDataType123", .int 5, []⟩)]⟩
        .dict = .ok (.inr [])
    ∧ ContextEntity.get_relationships
        ⟨"MyId", "MyType", [("a", ⟨"customDataType123", .int 5, []⟩)]⟩
        .dict = .ok (.inr []) :=
  ⟨rfl, List.mem_singleton.mpr rfl, by decide, rfl, rfl⟩

/-- C4, amended: on a validated entity, get_relationships returns exactly
the attributes whose declared type is the string "Relationship", and
get_properties returns exactly the attributes whose declared type is one of
the other known DataType values; together they partition only the
attributes whose type lies in the DataType vocabulary, and an attribute
with a free-form type outside the vocabulary is returned by neither. -/
theorem C4_amended_properties_relationships :
    ∀ (id ty : String) (data : List (String × RawAttribute))
      (e : ContextEntity), ContextEntity.parse id ty data = .ok e →
      e.get_properties .dict =
        .ok (.inr (e.attrs.filter fun ka =>
          (["Text", "Boolean", "Number", "Float", "Integer", "DateTime",
            "Array", "StructuredValue", "command"] : List String).contains
            ka.2.type))
      ∧ e.get_relationships .dict =
        .ok (.inr (e.attrs.filter fun ka =>
          (["Relationship"] : List String).contains ka.2.type))
      ∧ ∀ ka ∈ e.attrs, ka.2.type ∉ dataTypeList.map DataType.value →
          ka ∉ (e.attrs.filter fun ka2 =>
            (["Text", "Boolean", "Number", "Float", "Integer", "DateTime",
              "Array", "StructuredValue", "command"] : List String).contains
              ka2.2.type)
          ∧ ka ∉ (e.attrs.filter fun ka2 =>
            (["Relationship"] : List String).contains ka2.2.type) := by
  intro id ty data e h
  have hwf := entity_attrs_wf id ty data e h
  refine ⟨?_, ?_, ?_⟩
  · have hq := get_attributes_dict_eq e Option.none
      (some [DataType.relationship]) rfl hwf
    rw [ContextEntity.get_properties, hq]
    rfl
  · have hq := get_attributes_dict_eq e (some [DataType.relationship])
      Option.none rfl hwf
    rw [ContextEntity.get_relationships, hq]
    rfl
  · intro ka _ hnot
    constructor
    · intro hc
      have hx := List.mem_filter.mp hc
      have hmem : ka.2.type ∈
          (["Text", "Boolean", "Number", "Float", "Integer", "DateTime",
            "Array", "StructuredValue", "command"] : List String) :=
        List.elem_iff.mp hx.2
      refine hnot ?_
      show ka.2.type ∈
        (["Text", "Boolean", "Number", "Float", "Integer", "DateTime",
          "Array", "StructuredValue", "Relationship", "command"] :
          List String)
      simp only [List.mem_cons, List.not_mem_nil, or_false] at hmem ⊢
      tauto
    · intro hc
      have hx := List.mem_filter.mp hc
      have hmem : ka.2.type ∈ (["Relationship"] : List String) :=
        List.elem_iff.mp hx.2
      refine hnot ?_
      show ka.2.type ∈
        (["Text", "Boolean", "Number", "Float", "Integer", "DateTime",
          "Array", "StructuredValue", "Relationship", "command"] :
          List String)
      simp only [List.mem_cons, List.not_mem_nil, or_false] at hmem ⊢
      tauto

/-- Witness for the amended C4: on an entity with a Number property, a
Relationship and a free-form-typed attribute, the property filter returns
exactly the Number attribute, the relationship filter exactly the
Relationship attribute, and the free-form attribute is in neither. -/
theorem C4_amended_witness :
    ContextEntity.get_properties
      ⟨"MyId", "MyType",
        [("temperature", ⟨"Number", .float 20, []⟩),
         ("relation", ⟨"Relationship", .str "OtherEntity", []⟩),
         ("c", ⟨"freeFormType9", .int 1, []⟩)]⟩ .dict =
      .ok (.inr ((⟨"MyId", "MyType",
        [("temperature", ⟨"Number", .float 20, []⟩),
         ("relation", ⟨"Relationship", .str "OtherEntity", []⟩),
         ("c", ⟨"freeFormType9", .int 1, []⟩)]⟩ :
          ContextEntity).attrs.filter fun ka =>
        (["Text", "Boolean", "Number", "Float", "Integer", "DateTime",
          "Array", "StructuredValue", "command"] : List String).contains
          ka.2.type))
    ∧ ContextEntity.get_relationships
      ⟨"MyId", "MyType",
        [("temperature", ⟨"Number", .float 20, []⟩),
         ("relation", ⟨"Relationship", .str "OtherEntity", []⟩),
         ("c", ⟨"freeFormType9", .int 1, []⟩)]⟩ .dict =
      .ok (.inr ((⟨"MyId", "MyType",
        [("temperature", ⟨"Number", .float 20, []⟩),
         ("relation", ⟨"Relationship", .str "OtherEntity", []⟩),
         ("c", ⟨"freeFormType9", .int 1, []⟩)]⟩ :
          ContextEntity).attrs.filter fun ka =>
        (["Relationship"] : List String).contains ka.2.type))
    ∧ ("c", (⟨"freeFormType9", .int 1, []⟩ : ContextAttribute)) ∉
        ((⟨"MyId", "MyType",
          [("temperature", ⟨"Number", .float 20, []⟩),
           ("relation", ⟨"Relationship", .str "OtherEntity", []⟩),
           ("c", ⟨"freeFormType9", .int 1, []⟩)]⟩ :
            ContextEntity).attrs.filter fun ka2 =>
          (["Text", "Boolean", "Number", "Float", "Integer", "DateTime",
            "Array", "StructuredValue", "command"] : List String).contains
            ka2.2.type) := by
  have hm := C4_amended_properties_relationships "MyId" "MyType"
    [("temperature", ⟨some "Number", .float 20, []⟩),
     ("relation", ⟨some "Relationship", .str "OtherEntity", []⟩),
     ("c", ⟨some "freeFormType9", .int 1, []⟩)]
    ⟨"MyId", "MyType",
      [("temperature", ⟨"Number", .float 20, []⟩),
       ("relation", ⟨"Relationship", .str "OtherEntity", []⟩),
       ("c", ⟨"freeFormType9", .int 1, []⟩)]⟩ rfl
  exact ⟨hm.1, hm.2.1,
    (hm.2.2 ("c", ⟨"freeFormType9", .int 1, []⟩)
      (by simp) (by decide)).1⟩

/-- C5, counterexample: the name "3_:strange-Name!" contains a colon, yet
constructing a NamedContextAttribute and a NamedCommand with it succeeds
(the protected pattern bans only the reserved tokens, matching the
repository test test_fiware_safe_fields). -/
theorem C5_counterexample :
    NamedContextAttribute.parse "3_:strange-Name!"
      (rawAttr DataType.text.value PyValue.none) =
      .ok ⟨"3_:strange-Name!", "Text", PyValue.none, []⟩
    ∧ ':' ∈ "3_:strange-Name!".toList
    ∧ NamedCommand.parse "3_:strange-Name!" PyValue.none =
      .ok ⟨"3_:strange-Name!", PyValue.none⟩ :=
  ⟨rfl, by decide, rfl⟩

/-- C5, amended: for each reserved token "id", "type" and "geo:location",
constructing a NamedContextAttribute or a NamedCommand with that name fails
validation, while the same string succeeds as the type field of a
ContextAttribute or ContextMetadata; any other standard-pattern string
(colons included) is accepted as a name. -/
theorem C5_amended_protected_names :
    (∀ s, s ∈ (["id", "type", "geo:location"] : List String) →
      (∀ raw : RawAttribute, ∃ err,
        NamedContextAttribute.parse s raw = .error err)
      ∧ (∀ v : PyValue, NamedCommand.parse s v = .error .validation)
      ∧ ContextAttribute.parse ⟨some s, PyValue.none, []⟩ =
        .ok ⟨s, PyValue.none, []⟩
      ∧ ContextMetadata.parse (some s) PyValue.none =
        .ok ⟨some s, PyValue.none⟩)
    ∧ (∀ s, standardPattern s = true →
      s ∉ (["id", "type", "geo:location"] : List String) →
      NamedContextAttribute.parse s (rawAttr DataType.text.value PyValue.none)
        = .ok ⟨s, "Text", PyValue.none, []⟩) := by
  constructor
  · intro s hs
    have hsp : stringProtect s = false := by
      rcases List.mem_cons.mp hs with h | hs2
      · subst h; rfl
      rcases List.mem_cons.mp hs2 with h | hs3
      · subst h; rfl
      rcases List.mem_cons.mp hs3 with h | hs4
      · subst h; rfl
      · cases hs4
    have hstd : standardPattern s = true := by
      rcases List.mem_cons.mp hs with h | hs2
      · subst h; rfl
      rcases List.mem_cons.mp hs2 with h | hs3
      · subst h; rfl
      rcases List.mem_cons.mp hs3 with h | hs4
      · subst h; rfl
      · cases hs4
    refine ⟨?_, ?_, ?_, ?_⟩
    · intro raw
      cases hpa : ContextAttribute.parse raw with
      | error e =>
        exact ⟨e, by rw [NamedContextAttribute.parse, hpa]⟩
      | ok a =>
        refine ⟨.validation, ?_⟩
        rw [NamedContextAttribute.parse, hpa]
        simp only [hsp]
        rfl
    · intro v
      rw [NamedCommand.parse, if_neg (by simp [hsp])]
    · rw [ContextAttribute.parse]
      simp only [Option.getD_some]
      rw [if_pos hstd, validate_value_type]
      rfl
    · simp only [ContextMetadata.parse]
      rw [if_pos hstd]
  · intro s hp hnot
    have h1 : s ≠ "id" := fun hc => hnot (by simp [hc])
    have h2 : s ≠ "type" := fun hc => hnot (by simp [hc])
    have h3 : s ≠ "geo:location" := fun hc => hnot (by simp [hc])
    have hsp : stringProtect s = true := by
      rw [stringProtect, hp]
      simp [h1, h2, h3]
    rw [NamedContextAttribute.parse]
    rw [show ContextAttribute.parse (rawAttr DataType.text.value PyValue.none)
      = .ok ⟨"Text", PyValue.none, []⟩ from rfl]
    simp only [hsp]
    rfl

/-- Witness for the amended C5: the token "id" is rejected as an attribute
and command name but accepted as a type, and the colon-containing
standard-pattern string "a:b" is accepted as an attribute name. -/
theorem C5_amended_protected_names_witness :
    (∃ err, NamedContextAttribute.parse "id"
      (rawAttr DataType.text.value PyValue.none) = .error err)
    ∧ NamedCommand.parse "id" PyValue.none = .error .validation
    ∧ ContextAttribute.parse ⟨some "id", PyValue.none, []⟩ =
      .ok ⟨"id", PyValue.none, []⟩
    ∧ NamedContextAttribute.parse "a:b"
      (rawAttr DataType.text.value PyValue.none) =
      .ok ⟨"a:b", "Text", PyValue.none, []⟩ :=
  ⟨(C5_amended_protected_names.1 "id" (by simp)).1
      (rawAttr DataType.text.value PyValue.none),
   (C5_amended_protected_names.1 "id" (by simp)).2.1 PyValue.none,
   (C5_amended_protected_names.1 "id" (by simp)).2.2.1,
   C5_amended_protected_names.2 "a:b" (by decide) (by decide)⟩

/-- C6: constructing an Update succeeds exactly when action_type is one of
the five enumeration values; any other string fails with a
ValueError-class error, and on success the stored action_type is the
member whose value is the given string. -/
theorem C6_update_action_type :
    (∀ s : String, (∃ a, ActionType.ofString s = .ok a) ↔
      s ∈ (["append", "appendStrict", "update", "delete", "replace"] :
        List String))
    ∧ (∀ (s : String) (a : ActionType), ActionType.ofString s = .ok a →
      a.value = s)
    ∧ (∀ (s : String) (ents : List ContextEntity) (u : Update),
      Update.parse s ents = .ok u →
      ActionType.ofString s = .ok u.action_type ∧ u.entities = ents)
    ∧ (∀ (s : String) (ents : List ContextEntity),
      s ∉ (["append", "appendStrict", "update", "delete", "replace"] :
        List String) →
      Update.parse s ents = .error .validation) := by
  have hof : ∀ s : String,
      s ∉ (["append", "appendStrict", "update", "delete", "replace"] :
        List String) → ActionType.ofString s = .error .validation := by
    intro s hs
    simp only [List.mem_cons, List.not_mem_nil, or_false, not_or] at hs
    obtain ⟨n1, n2, n3, n4, n5⟩ := hs
    rw [ActionType.ofString, if_neg n1, if_neg n2, if_neg n3, if_neg n4,
      if_neg n5]
  refine ⟨?_, ?_, ?_, ?_⟩
  · intro s
    constructor
    · rintro ⟨a, ha⟩
      by_cases hs : s ∈ (["append", "appendStrict", "update", "delete",
        "replace"] : List String)
      · exact hs
      · rw [hof s hs] at ha
        cases ha
    · intro hs
      rcases List.mem_cons.mp hs with h | hs
      · exact ⟨.append, by rw [h]; rfl⟩
      rcases List.mem_cons.mp hs with h | hs
      · exact ⟨.appendStrict, by rw [h]; rfl⟩
      rcases List.mem_cons.mp hs with h | hs
      · exact ⟨.update, by rw [h]; rfl⟩
      rcases List.mem_cons.mp hs with h | hs
      · exact ⟨.delete, by rw [h]; rfl⟩
      rcases List.mem_cons.mp hs with h | hs
      · exact ⟨.«replace», by rw [h]; rfl⟩
      · cases hs
  · intro s a ha
    rw [ActionType.ofString] at ha
    by_cases h1 : s = "append"
    · rw [if_pos h1] at ha; cases ha; rw [h1]; rfl
    rw [if_neg h1] at ha
    by_cases h2 : s = "appendStrict"
    · rw [if_pos h2] at ha; cases ha; rw [h2]; rfl
    rw [if_neg h2] at ha
    by_cases h3 : s = "update"
    · rw [if_pos h3] at ha; cases ha; rw [h3]; rfl
    rw [if_neg h3] at ha
    by_cases h4 : s = "delete"
    · rw [if_pos h4] at ha; cases ha; rw [h4]; rfl
    rw [if_neg h4] at ha
    by_cases h5 : s = "replace"
    · rw [if_pos h5] at ha; cases ha; rw [h5]; rfl
    rw [if_neg h5] at ha
    cases ha
  · intro s ents u hu
    rw [Update.parse] at hu
    cases ha : ActionType.ofString s with
    | error e => rw [ha] at hu; cases hu
    | ok a =>
      rw [ha] at hu
      cases hu
      exact ⟨rfl, rfl⟩
  · intro s ents hs
    rw [Update.parse, hof s hs]

/-- Witness for C6: "append" is accepted (and stored as the append member),
"update" maps to the update member with value "update", and the
out-of-vocabulary string "test" fails with a ValueError-class error. -/
theorem C6_update_action_type_witness :
    (∃ a, ActionType.ofString "append" = .ok a)
    ∧ ActionType.update.value = "update"
    ∧ (ActionType.ofString "append" =
        .ok (Update.mk ActionType.append []).action_type
      ∧ (Update.mk ActionType.append []).entities = ([] : List ContextEntity))
    ∧ Update.parse "test" [] = .error .validation :=
  ⟨(C6_update_action_type.1 "append").mpr (by simp),
   C6_update_action_type.2.1 "update" .update rfl,
   C6_update_action_type.2.2.1 "append" [] (Update.mk ActionType.append [])
     rfl,
   C6_update_action_type.2.2.2 "test" [] (by simp)⟩

/-- C7: supplying both a whitelist and a blacklist to get_attributes fails
with the precondition (assertion) error for every entity, every pair of
non-empty type lists and every response format; supplying only one of them,
or neither, never produces that assertion error. -/
theorem C7_whitelist_blacklist_exclusive :
    (∀ (e : ContextEntity) (X Y : List DataType) (fmt : PropertyFormat),
      X ≠ [] → Y ≠ [] →
      e.get_attributes (some X) (some Y) fmt = .error .assertion)
    ∧ (∀ (e : ContextEntity) (wl bl : Option (List DataType))
        (fmt : PropertyFormat), wl = Option.none ∨ bl = Option.none →
      e.get_attributes wl bl fmt ≠ .error .assertion) :=
  ⟨fun _ _ _ _ _ _ => rfl, get_attributes_no_assertion⟩

/-- Witness for C7: the assertion fires on a concrete entity with both
lists supplied, and is absent when only the blacklist is supplied. -/
theorem C7_whitelist_blacklist_exclusive_witness :
    (⟨"I", "T", []⟩ : ContextEntity).get_attributes
      (some [DataType.text]) (some [DataType.relationship]) .list =
      .error .assertion
    ∧ (⟨"I", "T", []⟩ : ContextEntity).get_attributes
      Option.none (some [DataType.relationship]) .list ≠ .error .assertion :=
  ⟨C7_whitelist_blacklist_exclusive.1 ⟨"I", "T", []⟩ [DataType.text]
      [DataType.relationship] .list (List.cons_ne_nil _ _)
      (List.cons_ne_nil _ _),
   C7_whitelist_blacklist_exclusive.2 ⟨"I", "T", []⟩ Option.none
      (some [DataType.relationship]) .list (Or.inl rfl)⟩

/-- C8: delete_attributes accepts a name-keyed mapping, a list of
NamedContextAttribute or a list of name strings; when the collected names
are distinct attributes of the entity it removes exactly those attributes
without error, and when some referenced name is not an attribute of the
entity the call fails with a lookup error. -/
theorem C8_delete_attributes :
    (∀ (e : ContextEntity) (arg : DeleteArg), arg.names.Nodup →
      (∀ n ∈ arg.names, n ∈ e.get_attribute_names) →
      e.delete_attributes arg =
        (⟨e.id, e.type, e.attrs.filter fun p => decide (p.1 ∉ arg.names)⟩,
          Option.none))
    ∧ (∀ (e : ContextEntity) (arg : DeleteArg),
      (∃ n ∈ arg.names, n ∉ e.get_attribute_names) →
      ∃ m, (e.delete_attributes arg).2 = some (.lookup m)) := by
  constructor
  · intro e arg hnd hall
    rw [ContextEntity.delete_attributes]
    exact deleteRun_all_present arg.names e hnd hall
  · intro e arg h
    rw [ContextEntity.delete_attributes]
    exact deleteRun_some_missing arg.names e h

/-- Witness for C8: on the spec example entity with a single Number
attribute "temperature", deletion by name string, by mapping and by
NamedContextAttribute each empty the attribute set, and deleting an unknown
name fails with a lookup error. -/
theorem C8_delete_attributes_witness :
    (⟨"MyId", "MyType", [("temperature", ⟨"Number", .float 20, []⟩)]⟩ :
      ContextEntity).delete_attributes (.list [.inl "temperature"]) =
      (⟨"MyId", "MyType", []⟩, Option.none)
    ∧ ((⟨"MyId", "MyType", [("temperature", ⟨"Number", .float 20, []⟩)]⟩ :
      ContextEntity).delete_attributes
        (.list [.inl "temperature"])).1.get_attribute_names = []
    ∧ (⟨"MyId", "MyType", [("temperature", ⟨"Number", .float 20, []⟩)]⟩ :
      ContextEntity).delete_attributes
        (.dict [("temperature", ⟨"Number", .float 20, []⟩)]) =
      (⟨"MyId", "MyType", []⟩, Option.none)
    ∧ (⟨"MyId", "MyType", [("temperature", ⟨"Number", .float 20, []⟩)]⟩ :
      ContextEntity).delete_attributes
        (.list [.inr ⟨"temperature", "Number", .float 20, []⟩]) =
      (⟨"MyId", "MyType", []⟩, Option.none)
    ∧ ∃ m, ((⟨"MyId", "MyType",
        [("temperature", ⟨"Number", .float 20, []⟩)]⟩ :
      ContextEntity).delete_attributes (.list [.inl "bogus"])).2 =
        some (.lookup m) := by
  have h1 := C8_delete_attributes.1
    ⟨"MyId", "MyType", [("temperature", ⟨"Number", .float 20, []⟩)]⟩
    (.list [.inl "temperature"]) (by simp [DeleteArg.names])
    (by
      intro n hn
      simp only [DeleteArg.names, List.map_cons, List.map_nil,
        List.mem_singleton] at hn
      subst hn
      simp [ContextEntity.get_attribute_names])
  have h2 := C8_delete_attributes.1
    ⟨"MyId", "MyType", [("temperature", ⟨"Number", .float 20, []⟩)]⟩
    (.dict [("temperature", ⟨"Number", .float 20, []⟩)])
    (by simp [DeleteArg.names])
    (by
      intro n hn
      simp only [DeleteArg.names, List.map_cons, List.map_nil,
        List.mem_singleton] at hn
      subst hn
      simp [ContextEntity.get_attribute_names])
  have h3 := C8_delete_attributes.1
    ⟨"MyId", "MyType", [("temperature", ⟨"Number", .float 20, []⟩)]⟩
    (.list [.inr ⟨"temperature", "Number", .float 20, []⟩])
    (by simp [DeleteArg.names])
    (by
      intro n hn
      simp only [DeleteArg.names, List.map_cons, List.map_nil,
        List.mem_singleton] at hn
      subst hn
      simp [ContextEntity.get_attribute_names])
  refine ⟨h1, by rw [h1]; rfl, h2, h3, ?_⟩
  exact C8_delete_attributes.2
    ⟨"MyId", "MyType", [("temperature", ⟨"Number", .float 20, []⟩)]⟩
    (.list [.inl "bogus"])
    ⟨"bogus", by simp [DeleteArg.names],
      by simp [ContextEntity.get_attribute_names]⟩

/-- C9: a falsy value (None, False, 0, 0.0, the empty string, the empty
list or the empty dict) skips coercion entirely under every declared type
and is stored unchanged; in particular value 0 under Text stays the integer
0, and value 0 under Array raises no type-mismatch error. -/
theorem C9_falsy_skips_coercion :
    (∀ (t : String) (v : PyValue), pyTruthy v = false →
      validate_value_type t v = .ok v)
    ∧ ContextAttribute.parse (rawAttr DataType.text.value (.int 0)) =
      .ok ⟨"Text", .int 0, []⟩
    ∧ ContextAttribute.parse (rawAttr DataType.array.value (.int 0)) =
      .ok ⟨"Array", .int 0, []⟩ := by
  refine ⟨?_, rfl, rfl⟩
  intro t v hv
  rw [validate_value_type, if_neg (by simp [hv])]

/-- Witness for C9: each falsy shape is passed through unchanged, under
types whose coercion would otherwise rewrite or reject it. -/
theorem C9_falsy_skips_coercion_witness :
    validate_value_type DataType.text.value (.int 0) = .ok (.int 0)
    ∧ validate_value_type DataType.number.value PyValue.none =
      .ok PyValue.none
    ∧ validate_value_type DataType.array.value (.int 0) = .ok (.int 0)
    ∧ validate_value_type DataType.text.value (.bool false) =
      .ok (.bool false)
    ∧ validate_value_type DataType.integer.value (.str "") = .ok (.str "")
    ∧ validate_value_type DataType.boolean.value (.list []) =
      .ok (.list [])
    ∧ validate_value_type DataType.number.value (.float 0) =
      .ok (.float 0)
    ∧ validate_value_type DataType.array.value (.dict []) =
      .ok (.dict []) :=
  ⟨C9_falsy_skips_coercion.1 DataType.text.value (.int 0) rfl,
   C9_falsy_skips_coercion.1 DataType.number.value PyValue.none rfl,
   C9_falsy_skips_coercion.1 DataType.array.value (.int 0) rfl,
   C9_falsy_skips_coercion.1 DataType.text.value (.bool false) rfl,
   C9_falsy_skips_coercion.1 DataType.integer.value (.str "") rfl,
   C9_falsy_skips_coercion.1 DataType.boolean.value (.list []) rfl,
   C9_falsy_skips_coercion.1 DataType.number.value (.float 0) rfl,
   C9_falsy_skips_coercion.1 DataType.array.value (.dict []) rfl⟩

/-- C10, counterexample: on an entity with the single attribute "a" and the
name list ["zz", "a", "w"], the existing name "a" precedes the missing name
"w", the call raises a lookup error, yet "a" has not been removed (the loop
already aborted at the earlier missing name "zz"). -/
theorem C10_counterexample :
    ((⟨"E", "T", [("a", ⟨"Text", .str "x", []⟩)]⟩ :
      ContextEntity).delete_attributes
        (.list [.inl "zz", .inl "a", .inl "w"])).2 = some (.lookup "zz")
    ∧ "a" ∈ ((⟨"E", "T", [("a", ⟨"Text", .str "x", []⟩)]⟩ :
      ContextEntity).delete_attributes
        (.list [.inl "zz", .inl "a", .inl "w"])).1.get_attribute_names
    ∧ "a" ∈ (⟨"E", "T", [("a", ⟨"Text", .str "x", []⟩)]⟩ :
      ContextEntity).get_attribute_names
    ∧ "w" ∉ (⟨"E", "T", [("a", ⟨"Text", .str "x", []⟩)]⟩ :
      ContextEntity).get_attribute_names := by
  refine ⟨rfl, ?_, ?_, ?_⟩
  · show "a" ∈ ["a"]
    simp
  · show "a" ∈ ["a"]
    simp
  · show ¬ "w" ∈ ["a"]
    simp

/-- C10, amended: delete_attributes is not atomic on error — when the
collected name list splits as pre ++ y :: post with pre a list of distinct
existing attribute names and y the first missing name, the call fails with
the lookup error for y and exactly the attributes named in pre have already
been removed by the failed call. -/
theorem C10_amended_partial_deletion :
    ∀ (e : ContextEntity) (arg : DeleteArg) (pre : List String) (y : String)
      (post : List String), arg.names = pre ++ y :: post →
      pre.Nodup → (∀ n ∈ pre, n ∈ e.get_attribute_names) →
      y ∉ e.get_attribute_names →
      e.delete_attributes arg =
        (⟨e.id, e.type, e.attrs.filter fun p => decide (p.1 ∉ pre)⟩,
          some (.lookup y))
      ∧ ∀ n ∈ pre, n ∉ (e.delete_attributes arg).1.get_attribute_names := by
  intro e arg pre y post harg hnd hall hy
  have heq : e.delete_attributes arg =
      (⟨e.id, e.type, e.attrs.filter fun p => decide (p.1 ∉ pre)⟩,
        some (.lookup y)) := by
    rw [ContextEntity.delete_attributes, harg]
    exact deleteRun_first_missing pre e y post hnd hall hy
  refine ⟨heq, ?_⟩
  intro n hn
  rw [heq]
  intro hc
  obtain ⟨pair, hpair, hfst⟩ := List.mem_map.mp hc
  apply of_decide_eq_true (List.mem_filter.mp hpair).2
  rw [hfst]
  exact hn

/-- Witness for the amended C10: on an entity with attributes "a" and "b",
deleting ["a", "w", "c"] removes "a", leaves "b", and aborts with the
lookup error for "w". -/
theorem C10_amended_partial_deletion_witness :
    (⟨"E", "T", [("a", ⟨"Text", .str "x", []⟩),
      ("b", ⟨"Text", .str "y", []⟩)]⟩ :
      ContextEntity).delete_attributes
        (.list [.inl "a", .inl "w", .inl "c"]) =
      (⟨"E", "T", [("b", ⟨"Text", .str "y", []⟩)]⟩, some (.lookup "w"))
    ∧ "a" ∉ ((⟨"E", "T", [("a", ⟨"Text", .str "x", []⟩),
      ("b", ⟨"Text", .str "y", []⟩)]⟩ :
      ContextEntity).delete_attributes
        (.list [.inl "a", .inl "w", .inl "c"])).1.get_attribute_names := by
  have hm := C10_amended_partial_deletion
    ⟨"E", "T", [("a", ⟨"Text", .str "x", []⟩),
      ("b", ⟨"Text", .str "y", []⟩)]⟩
    (.list [.inl "a", .inl "w", .inl "c"]) ["a"] "w" ["c"] rfl
    (by simp)
    (by
      intro n hn
      simp only [List.mem_singleton] at hn
      subst hn
      simp [ContextEntity.get_attribute_names])
    (by
      show ¬ "w" ∈ ["a", "b"]
      simp)
  exact ⟨hm.1, hm.2 "a" (List.mem_singleton.mpr rfl)⟩

end FiLiP
